import Mathlib

/-!
Verification of the streaming transcription/summarization orchestrator of
`src/app/page.tsx` (component `RecruitAssistPage`).

The component is embedded as an explicit state machine.  React `useState` /
`useRef` cells become fields of `AppState`; each event handler of the source
(`onChunkAvailable`, `onRecordingStop`, the debounce `useEffect`, the two
async gateway callbacks, `handleRecordToggle`) becomes a Lean function on
`AppState`.  An async gateway call is split at its `await`: the code before
the `await` runs when the call is issued (`...Start`), the code after it runs
when the remote call completes (`...Finish`).  Calls that are outstanding are
kept in explicit in-flight lists, so that the number of simultaneously
outstanding calls is an honest, provable quantity rather than a modelling
artefact.  Time is a millisecond counter `now`; `setTimeout` handles become
stored deadlines.

Ghost history fields (`txCalls`, `sumCalls`, `txResultsOk`, `enqueuedChunks`)
are not present in the source; they only record, at the exact source location
where a gateway call is issued / a result is received / a chunk is enqueued,
what happened, so that specifications can talk about "every call ever made".
They influence no guard and no source-modelled field.
-/

namespace Studio

/-- Status values of the source union type `AppProcessingStatus`. -/
inductive AppProcessingStatus where
  | idle
  | capturingAudio
  | processingAudioChunk
  | summarizingNotes
  | error
deriving DecidableEq, Repr

/-- Source constant `MIN_TRANSCRIPT_LENGTH_FOR_SUMMARY = 30` (characters). -/
def MIN_TRANSCRIPT_LENGTH_FOR_SUMMARY : Nat := 30

/-- Source constant `SUMMARIZE_DEBOUNCE_MS = 7000`. -/
def SUMMARIZE_DEBOUNCE_MS : Nat := 7000

/-- Initial value of `currentNotes` (also set again by `handleRecordToggle`
and by `checkAndFinalize` when the transcript is blank). -/
def initialNotes : String :=
  "Recruiter notes will appear here once enough content is transcribed."

/-- Placeholder written by the debounce effect while content is too short. -/
def waitingNotes : String :=
  "Waiting for more meaningful content to summarize."

/-- Placeholder written by the final-summary path when content is too short. -/
def notEnoughNotes : String :=
  "Not enough content to summarize. Try recording a longer interview."

/-- Whitespace trimming of JavaScript `String.prototype.trim`, as used by the
source's `.trim()` calls.  It is implemented by structural recursion over the
character list (Lean's own `String.trim` uses well-founded recursion and does
not reduce inside the kernel). -/
def strTrim (s : String) : String :=
  ⟨((s.data.dropWhile Char.isWhitespace).reverse.dropWhile
      Char.isWhitespace).reverse⟩

/-- Notes text written by the summarization catch handler
(`msg.substring(0, 150)` followed by an ellipsis). -/
def errorNotes (msg : String) : String :=
  "Error updating notes. Details: " ++ String.mk (msg.data.take 150) ++ "..."

/-- Error message set by the `handleRecordToggle` catch handler. -/
def startFailureMsg : String := "Failed to start recording."

/-- State of the component: React state hooks, refs, the recorder's
`isRecording` flag, outstanding timers and in-flight remote calls, plus the
ghost history fields described in the file header.  The source keeps a
`transcriptRef` mirror of `currentTranscript` (synced by a `useEffect`);
the two are merged into the single field `currentTranscript`. -/
structure AppState where
  currentTranscript : String
  currentNotes : String
  appStatus : AppProcessingStatus
  errorMessage : Option String
  audioChunkQueue : List String
  isProcessingAudioChunk : Bool
  /-- Deadline (ms) of the pending `summarizeTimeoutRef` timer, if any. -/
  summarizeTimeout : Option Nat
  isRecording : Bool
  /-- Whether a `setTimeout(checkAndFinalize, 500)` retry is outstanding. -/
  finalizePollPending : Bool
  /-- Current time in milliseconds. -/
  now : Nat
  /-- Payloads of transcription calls issued but not completed. -/
  inFlightTranscriptions : List String
  /-- Snapshot and `isFinal` flag of summarization calls issued but not
  completed. -/
  inFlightSummarizations : List (String × Bool)
  /-- Ghost: every payload ever passed to `transcribeInterview`. -/
  txCalls : List String
  /-- Ghost: every `(transcript, isFinal)` ever passed to
  `summarizeInterview`. -/
  sumCalls : List (String × Bool)
  /-- Ghost: every transcription text successfully returned, in completion
  order (empty texts included). -/
  txResultsOk : List String
  /-- Ghost: every chunk actually pushed onto `audioChunkQueueRef`. -/
  enqueuedChunks : List String
deriving DecidableEq, Repr

open AppProcessingStatus

/-- Transcript append of the source success path:
`prev + (prev ? " " : "") + result`. -/
def appendTranscription (prev text : String) : String :=
  prev ++ (if prev = "" then "" else " ") ++ text

/-- Space-joined concatenation of a list of chunk-transcription results,
skipping empty results (the source appends nothing for a falsy
`result.transcription`). -/
def joinChunkTexts (l : List String) : String :=
  l.foldl (fun acc x => if x = "" then acc else appendTranscription acc x) ""

/-- Lines 83–97 of the source: `handleSummarizeNotes` up to (and including)
issuing the `summarizeInterview` call; the code after the `await` is
`handleSummarizeNotesFinish`. -/
def handleSummarizeNotesStart (s : AppState) (t : String) (isFinal : Bool) :
    AppState :=
  if (strTrim t).length < MIN_TRANSCRIPT_LENGTH_FOR_SUMMARY then
    if isFinal = true ∧ s.isRecording = false ∧ s.appStatus ≠ error then
      { s with currentNotes := notEnoughNotes, appStatus := idle }
    else if isFinal = false ∧ s.appStatus ≠ summarizingNotes ∧
        s.appStatus ≠ error then
      { s with currentNotes := waitingNotes }
    else s
  else if s.appStatus = summarizingNotes ∧ isFinal = false then s
  else if s.appStatus = error ∧ isFinal = false then s
  else
    { s with appStatus := summarizingNotes,
             inFlightSummarizations := s.inFlightSummarizations ++ [(t, isFinal)],
             sumCalls := s.sumCalls ++ [(t, isFinal)] }

/-- Lines 100–122 of the source: the part of `handleSummarizeNotes` that runs
when the `summarizeInterview` call completes, with `result` its outcome. -/
def handleSummarizeNotesFinish (s : AppState) (isFinal : Bool)
    (result : Except String String) : AppState :=
  match result with
  | .ok summary =>
      { s with currentNotes := summary,
               appStatus :=
                 if s.appStatus ≠ error then
                   if isFinal = true then idle
                   else if s.isRecording = true then capturingAudio
                   else processingAudioChunk
                 else s.appStatus }
  | .error msg =>
      { s with errorMessage := some msg,
               currentNotes := errorNotes msg,
               appStatus := error }

/-- Lines 161–172 of the source: `handleChunkTranscription` up to (and
including) issuing the `transcribeInterview` call. -/
def handleChunkTranscriptionStart (s : AppState) (chunk : String) : AppState :=
  { s with isProcessingAudioChunk := true,
           appStatus :=
             if s.appStatus ≠ error ∧ s.appStatus ≠ summarizingNotes then
               if s.isRecording = true then capturingAudio
               else processingAudioChunk
             else s.appStatus,
           inFlightTranscriptions := s.inFlightTranscriptions ++ [chunk],
           txCalls := s.txCalls ++ [chunk] }

/-- Lines 203–210 of the source: `doProcessAudioChunkQueue`. -/
def doProcessAudioChunkQueue (s : AppState) : AppState :=
  if s.isProcessingAudioChunk = false ∧ s.appStatus ≠ error then
    match s.audioChunkQueue with
    | [] => s
    | chunkToProcess :: rest =>
        handleChunkTranscriptionStart { s with audioChunkQueue := rest }
          chunkToProcess
  else s

/-- Lines 170–199 of the source: the part of `handleChunkTranscription` that
runs when the `transcribeInterview` call completes (try/catch body after the
`await`, then the `finally` block). -/
def txFinishBody (s : AppState) (result : Except String String) : AppState :=
  match result with
  | .ok text =>
      { s with txResultsOk := s.txResultsOk ++ [text],
               currentTranscript :=
                 if text ≠ "" then
                   appendTranscription s.currentTranscript text
                 else s.currentTranscript }
  | .error msg =>
      { s with errorMessage := some msg, appStatus := error }

/-- Lines 188–198 of the source: the status fixups at the end of the
`finally` block of `handleChunkTranscription` (they run after
`doProcessAudioChunkQueue` was re-invoked). -/
def txFinishTail (s : AppState) : AppState :=
  if s.isRecording = false ∧ s.audioChunkQueue = [] then
    if s.appStatus ≠ error ∧ strTrim s.currentTranscript = "" then
      { s with appStatus := idle }
    else if s.appStatus ≠ error ∧ s.appStatus ≠ summarizingNotes ∧
        (strTrim s.currentTranscript).length < MIN_TRANSCRIPT_LENGTH_FOR_SUMMARY then
      { s with appStatus := idle }
    else s
  else if s.isRecording = true ∧ s.appStatus ≠ error ∧
      s.appStatus ≠ summarizingNotes then
    { s with appStatus := capturingAudio }
  else s

/-- Lines 170–199 of the source assembled: the try/catch body after the
`await` of `transcribeInterview`, then the `finally` block (clear the
processing flag, re-invoke `doProcessAudioChunkQueue`, fix up the status). -/
def handleChunkTranscriptionFinish (s : AppState)
    (result : Except String String) : AppState :=
  txFinishTail (doProcessAudioChunkQueue
    { txFinishBody s result with isProcessingAudioChunk := false })

/-- Lines 58–72 of the source: one execution of `checkAndFinalize`. -/
def checkAndFinalize (s : AppState) : AppState :=
  if s.audioChunkQueue = [] ∧ s.isProcessingAudioChunk = false then
    if MIN_TRANSCRIPT_LENGTH_FOR_SUMMARY ≤ (strTrim s.currentTranscript).length ∧
        s.appStatus ≠ error then
      handleSummarizeNotesStart s s.currentTranscript true
    else if s.appStatus ≠ error then
      { s with appStatus := idle,
               currentNotes :=
                 if strTrim s.currentTranscript = "" then initialNotes
                 else s.currentNotes }
    else s
  else if s.appStatus ≠ error then
    { s with appStatus := processingAudioChunk, finalizePollPending := true }
  else s

/-- Lines 54–73 of the source: the recorder's stop callback.  The recorder
hook sets `isRecording` to false and then invokes `onRecordingStop`, which
clears the debounce timer and runs `checkAndFinalize` once. -/
def onRecordingStop (s : AppState) : AppState :=
  checkAndFinalize { s with isRecording := false, summarizeTimeout := none }

/-- Lines 49–53 of the source: `onChunkAvailable`. -/
def onChunkAvailable (s : AppState) (chunk : String) : AppState :=
  if s.appStatus = error then s
  else
    doProcessAudioChunkQueue
      { s with audioChunkQueue := s.audioChunkQueue ++ [chunk],
               enqueuedChunks := s.enqueuedChunks ++ [chunk] }

/-- Lines 125–158 of the source: the body of the debounce `useEffect`
(it runs after any event that changed `currentTranscript`, `isRecording` or
`appStatus`, the dependencies of the effect). -/
def summarizeDebounceEffect (s : AppState) : AppState :=
  if s.isRecording = false ∨ strTrim s.currentTranscript = "" ∨
      s.appStatus = error ∨ s.appStatus = summarizingNotes then
    { s with summarizeTimeout := none }
  else if (strTrim s.currentTranscript).length < MIN_TRANSCRIPT_LENGTH_FOR_SUMMARY then
    { s with summarizeTimeout := none,
             currentNotes :=
               if s.appStatus ≠ summarizingNotes ∧ s.appStatus ≠ error then
                 waitingNotes
               else s.currentNotes }
  else
    { s with summarizeTimeout := some (s.now + SUMMARIZE_DEBOUNCE_MS) }

/-- Lines 147–151 of the source: the debounce timer fires.  A fire can only
happen once the stored deadline has been reached; the guard of the callback
is then re-checked before `handleSummarizeNotes` is called. -/
def summarizeTimeoutFire (s : AppState) : AppState :=
  match s.summarizeTimeout with
  | none => s
  | some deadline =>
      if deadline ≤ s.now then
        if s.isRecording = true ∧
            MIN_TRANSCRIPT_LENGTH_FOR_SUMMARY ≤
              (strTrim s.currentTranscript).length ∧
            s.appStatus ≠ error ∧ s.appStatus ≠ summarizingNotes then
          handleSummarizeNotesStart { s with summarizeTimeout := none }
            s.currentTranscript false
        else { s with summarizeTimeout := none }
      else s

/-- Line 70 of the source: an outstanding `setTimeout(checkAndFinalize, 500)`
fires. -/
def finalizePollFire (s : AppState) : AppState :=
  if s.finalizePollPending = true then
    checkAndFinalize { s with finalizePollPending := false }
  else s

/-- Lines 225–246 of the source: `handleRecordToggle`.  While recording it
only requests a stop (whose effects arrive with the recorder's stop
callback, `onRecordingStop`); otherwise it resets the session state and
starts capture, `startOk` being the outcome of `startAudioCapture`. -/
def handleRecordToggle (s : AppState) (startOk : Bool) : AppState :=
  if s.isRecording = true then s
  else
    { s with currentTranscript := "", currentNotes := initialNotes,
             audioChunkQueue := [],
             errorMessage := if startOk then none else some startFailureMsg,
             appStatus := if startOk then capturingAudio else error,
             isRecording := startOk }

deriving instance DecidableEq for Except

/-- External events driving the component: a chunk arrival, the completion of
the (unique, head) outstanding transcription call, the completion of the
`i`-th outstanding summarization call, the debounce timer firing, an
outstanding finalization poll firing, the recorder's stop callback, time
passing, and the record button being toggled. -/
inductive Event where
  | chunkArrive (chunk : String)
  | txComplete (result : Except String String)
  | sumComplete (i : Nat) (result : Except String String)
  | timeoutFire
  | pollFire
  | recordingStop
  | tick (d : Nat)
  | toggle (startOk : Bool)
deriving DecidableEq, Repr

/-- Whether an event is a press of the record button. -/
def Event.isToggle : Event → Bool
  | .toggle _ => true
  | _ => false

/-- Dispatch of one event to the handler code of the source.  Completion
events for calls that are not in flight are impossible and modelled as
no-ops. -/
def coreStep (s : AppState) : Event → AppState
  | .chunkArrive c => onChunkAvailable s c
  | .txComplete r =>
      match s.inFlightTranscriptions with
      | [] => s
      | _ :: rest =>
          handleChunkTranscriptionFinish
            { s with inFlightTranscriptions := rest } r
  | .sumComplete i r =>
      match s.inFlightSummarizations.get? i with
      | none => s
      | some (_, isFinal) =>
          handleSummarizeNotesFinish
            { s with inFlightSummarizations :=
                s.inFlightSummarizations.eraseIdx i } isFinal r
  | .timeoutFire => summarizeTimeoutFire s
  | .pollFire => finalizePollFire s
  | .recordingStop => if s.isRecording = true then onRecordingStop s else s
  | .tick d => { s with now := s.now + d }
  | .toggle ok => handleRecordToggle s ok

/-- One event handler runs to completion, then React re-renders; the debounce
`useEffect` re-runs exactly when one of its dependencies
(`currentTranscript`, `isRecording`, `appStatus`) changed. -/
def step (s : AppState) (e : Event) : AppState :=
  if (coreStep s e).currentTranscript = s.currentTranscript ∧
      (coreStep s e).isRecording = s.isRecording ∧
      (coreStep s e).appStatus = s.appStatus then coreStep s e
  else summarizeDebounceEffect (coreStep s e)

/-- Run a sequence of events. -/
def run (s : AppState) (evs : List Event) : AppState := evs.foldl step s

/-- State of the freshly mounted component. -/
def mountState : AppState :=
  { currentTranscript := ""
    currentNotes := initialNotes
    appStatus := idle
    errorMessage := none
    audioChunkQueue := []
    isProcessingAudioChunk := false
    summarizeTimeout := none
    isRecording := false
    finalizePollPending := false
    now := 0
    inFlightTranscriptions := []
    inFlightSummarizations := []
    txCalls := []
    sumCalls := []
    txResultsOk := []
    enqueuedChunks := [] }

/-- State right after a successful session start. -/
def sessionStart : AppState := step mountState (.toggle true)

/-- Traces containing no press of the record button (a single session). -/
def noToggle (evs : List Event) : Prop := ∀ e ∈ evs, e.isToggle = false

instance : DecidablePred noToggle := fun evs =>
  inferInstanceAs (Decidable (∀ e ∈ evs, e.isToggle = false))

/-- Number of in-flight / recorded intermediate summarization calls. -/
def countInter (l : List (String × Bool)) : Nat :=
  (l.filter (fun p => p.2 = false)).length

/-- Number of in-flight / recorded final (mandatory) summarization calls. -/
def countFinal (l : List (String × Bool)) : Nat :=
  (l.filter (fun p => p.2 = true)).length

/-- The sentinel "insufficient content" placeholder values the source uses
for `currentNotes` (the spec's single abstract placeholder corresponds to
these three literal strings). -/
def isPlaceholderNotes (notes : String) : Prop :=
  notes = initialNotes ∨ notes = waitingNotes ∨ notes = notEnoughNotes

instance : DecidablePred isPlaceholderNotes := fun notes =>
  inferInstanceAs (Decidable (notes = initialNotes ∨ notes = waitingNotes ∨
    notes = notEnoughNotes))

/-! ### Counting lemmas -/

theorem countInter_append (l m : List (String × Bool)) :
    countInter (l ++ m) = countInter l + countInter m := by
  simp [countInter, List.filter_append]

theorem countFinal_append (l m : List (String × Bool)) :
    countFinal (l ++ m) = countFinal l + countFinal m := by
  simp [countFinal, List.filter_append]

theorem countInter_single (t : String) (f : Bool) :
    countInter [(t, f)] = if f then 0 else 1 := by
  cases f <;> simp [countInter, List.filter]

theorem countFinal_single (t : String) (f : Bool) :
    countFinal [(t, f)] = if f then 1 else 0 := by
  cases f <;> simp [countFinal, List.filter]

theorem count_eraseIdx (l : List (String × Bool)) (i : Nat) (t : String)
    (f : Bool) (h : l.get? i = some (t, f)) :
    countInter (l.eraseIdx i) + (if f then 0 else 1) = countInter l ∧
    countFinal (l.eraseIdx i) + (if f then 1 else 0) = countFinal l := by
  induction l generalizing i with
  | nil => simp at h
  | cons a l ih =>
      cases i with
      | zero =>
          simp only [List.get?] at h
          cases h
          cases f <;>
            simp [countInter, countFinal, List.eraseIdx, List.filter]
      | succ j =>
          simp only [List.get?] at h
          obtain ⟨h1, h2⟩ := ih j h
          constructor
          · calc countInter ((a :: l).eraseIdx (j + 1)) + (if f then 0 else 1)
                = countInter [a] + (countInter (l.eraseIdx j) +
                    (if f then 0 else 1)) := by
                  simp only [List.eraseIdx]
                  rw [show a :: l.eraseIdx j = [a] ++ l.eraseIdx j from rfl,
                    countInter_append]
                  omega
              _ = countInter [a] + countInter l := by rw [h1]
              _ = countInter (a :: l) := by
                  rw [show a :: l = [a] ++ l from rfl, countInter_append]
          · calc countFinal ((a :: l).eraseIdx (j + 1)) + (if f then 1 else 0)
                = countFinal [a] + (countFinal (l.eraseIdx j) +
                    (if f then 1 else 0)) := by
                  simp only [List.eraseIdx]
                  rw [show a :: l.eraseIdx j = [a] ++ l.eraseIdx j from rfl,
                    countFinal_append]
                  omega
              _ = countFinal [a] + countFinal l := by rw [h2]
              _ = countFinal (a :: l) := by
                  rw [show a :: l = [a] ++ l from rfl, countFinal_append]

theorem run_append (s : AppState) (evs : List Event) (e : Event) :
    run s (evs ++ [e]) = step (run s evs) e := by
  simp [run, List.foldl_append]

/-! ### Characterizations of the handler functions -/

theorem effect_fields (s : AppState) :
    (summarizeDebounceEffect s).currentTranscript = s.currentTranscript ∧
    (summarizeDebounceEffect s).appStatus = s.appStatus ∧
    (summarizeDebounceEffect s).errorMessage = s.errorMessage ∧
    (summarizeDebounceEffect s).audioChunkQueue = s.audioChunkQueue ∧
    (summarizeDebounceEffect s).isProcessingAudioChunk =
      s.isProcessingAudioChunk ∧
    (summarizeDebounceEffect s).isRecording = s.isRecording ∧
    (summarizeDebounceEffect s).finalizePollPending = s.finalizePollPending ∧
    (summarizeDebounceEffect s).now = s.now ∧
    (summarizeDebounceEffect s).inFlightTranscriptions =
      s.inFlightTranscriptions ∧
    (summarizeDebounceEffect s).inFlightSummarizations =
      s.inFlightSummarizations ∧
    (summarizeDebounceEffect s).txCalls = s.txCalls ∧
    (summarizeDebounceEffect s).sumCalls = s.sumCalls ∧
    (summarizeDebounceEffect s).txResultsOk = s.txResultsOk ∧
    (summarizeDebounceEffect s).enqueuedChunks = s.enqueuedChunks := by
  unfold summarizeDebounceEffect
  repeat' split
  all_goals simp [apply_ite]

theorem effect_notes (s : AppState) :
    (summarizeDebounceEffect s).currentNotes = s.currentNotes ∨
    (summarizeDebounceEffect s).currentNotes = waitingNotes := by
  unfold summarizeDebounceEffect
  repeat' split
  all_goals simp [apply_ite]

theorem effect_timer (s : AppState) :
    (summarizeDebounceEffect s).summarizeTimeout = none ∨
    s.isRecording = true := by
  unfold summarizeDebounceEffect
  repeat' split
  all_goals simp_all [apply_ite]

theorem txStart_fields (s : AppState) (c : String) :
    (handleChunkTranscriptionStart s c).currentTranscript =
      s.currentTranscript ∧
    (handleChunkTranscriptionStart s c).currentNotes = s.currentNotes ∧
    (handleChunkTranscriptionStart s c).errorMessage = s.errorMessage ∧
    (handleChunkTranscriptionStart s c).audioChunkQueue = s.audioChunkQueue ∧
    (handleChunkTranscriptionStart s c).isProcessingAudioChunk = true ∧
    (handleChunkTranscriptionStart s c).summarizeTimeout =
      s.summarizeTimeout ∧
    (handleChunkTranscriptionStart s c).isRecording = s.isRecording ∧
    (handleChunkTranscriptionStart s c).finalizePollPending =
      s.finalizePollPending ∧
    (handleChunkTranscriptionStart s c).now = s.now ∧
    (handleChunkTranscriptionStart s c).inFlightTranscriptions =
      s.inFlightTranscriptions ++ [c] ∧
    (handleChunkTranscriptionStart s c).inFlightSummarizations =
      s.inFlightSummarizations ∧
    (handleChunkTranscriptionStart s c).txCalls = s.txCalls ++ [c] ∧
    (handleChunkTranscriptionStart s c).sumCalls = s.sumCalls ∧
    (handleChunkTranscriptionStart s c).txResultsOk = s.txResultsOk ∧
    (handleChunkTranscriptionStart s c).enqueuedChunks = s.enqueuedChunks := by
  unfold handleChunkTranscriptionStart
  split_ifs <;> simp

theorem txStart_status (s : AppState) (c : String) :
    ((handleChunkTranscriptionStart s c).appStatus = s.appStatus ∨
      (handleChunkTranscriptionStart s c).appStatus = capturingAudio ∨
      (handleChunkTranscriptionStart s c).appStatus = processingAudioChunk) ∧
    (s.appStatus = error → (handleChunkTranscriptionStart s c).appStatus =
      error) ∧
    (s.appStatus = summarizingNotes →
      (handleChunkTranscriptionStart s c).appStatus = summarizingNotes) := by
  unfold handleChunkTranscriptionStart
  split_ifs <;> simp_all

theorem doPQ_eq (s : AppState) :
    (doProcessAudioChunkQueue s = s ∧
      (s.isProcessingAudioChunk = false → s.appStatus ≠ error →
        s.audioChunkQueue = [])) ∨
    (∃ c rest, s.audioChunkQueue = c :: rest ∧
      s.isProcessingAudioChunk = false ∧ s.appStatus ≠ error ∧
      doProcessAudioChunkQueue s =
        handleChunkTranscriptionStart { s with audioChunkQueue := rest } c) := by
  unfold doProcessAudioChunkQueue
  split_ifs with h
  · split
    · next hq => exact Or.inl ⟨rfl, fun _ _ => hq⟩
    · next c rest hq => exact Or.inr ⟨c, rest, hq, h.1, h.2, rfl⟩
  · left
    refine ⟨rfl, fun h1 h2 => absurd ⟨h1, h2⟩ h⟩

theorem sumStart_fields (s : AppState) (t : String) (f : Bool) :
    (handleSummarizeNotesStart s t f).currentTranscript =
      s.currentTranscript ∧
    (handleSummarizeNotesStart s t f).errorMessage = s.errorMessage ∧
    (handleSummarizeNotesStart s t f).audioChunkQueue = s.audioChunkQueue ∧
    (handleSummarizeNotesStart s t f).isProcessingAudioChunk =
      s.isProcessingAudioChunk ∧
    (handleSummarizeNotesStart s t f).summarizeTimeout =
      s.summarizeTimeout ∧
    (handleSummarizeNotesStart s t f).isRecording = s.isRecording ∧
    (handleSummarizeNotesStart s t f).finalizePollPending =
      s.finalizePollPending ∧
    (handleSummarizeNotesStart s t f).now = s.now ∧
    (handleSummarizeNotesStart s t f).inFlightTranscriptions =
      s.inFlightTranscriptions ∧
    (handleSummarizeNotesStart s t f).txCalls = s.txCalls ∧
    (handleSummarizeNotesStart s t f).txResultsOk = s.txResultsOk ∧
    (handleSummarizeNotesStart s t f).enqueuedChunks = s.enqueuedChunks := by
  unfold handleSummarizeNotesStart
  repeat' split
  all_goals simp

theorem sumStart_cases (s : AppState) (t : String) (f : Bool) :
    ((handleSummarizeNotesStart s t f).inFlightSummarizations =
        s.inFlightSummarizations ∧
      (handleSummarizeNotesStart s t f).sumCalls = s.sumCalls ∧
      ((handleSummarizeNotesStart s t f).currentNotes = s.currentNotes ∨
        (handleSummarizeNotesStart s t f).currentNotes = notEnoughNotes ∨
        (handleSummarizeNotesStart s t f).currentNotes = waitingNotes) ∧
      ((handleSummarizeNotesStart s t f).appStatus = s.appStatus ∨
        ((handleSummarizeNotesStart s t f).appStatus = idle ∧
          s.appStatus ≠ error))) ∨
    ((handleSummarizeNotesStart s t f).inFlightSummarizations =
        s.inFlightSummarizations ++ [(t, f)] ∧
      (handleSummarizeNotesStart s t f).sumCalls = s.sumCalls ++ [(t, f)] ∧
      (handleSummarizeNotesStart s t f).appStatus = summarizingNotes ∧
      (handleSummarizeNotesStart s t f).currentNotes = s.currentNotes ∧
      MIN_TRANSCRIPT_LENGTH_FOR_SUMMARY ≤ (strTrim t).length ∧
      (f = false → s.appStatus ≠ summarizingNotes ∧ s.appStatus ≠ error)) := by
  cases f
  all_goals unfold handleSummarizeNotesStart
  all_goals (repeat' split)
  all_goals simp_all

theorem sumStart_issue (s : AppState) (t : String)
    (h : MIN_TRANSCRIPT_LENGTH_FOR_SUMMARY ≤ (strTrim t).length) :
    handleSummarizeNotesStart s t true =
      { s with appStatus := summarizingNotes,
               inFlightSummarizations :=
                 s.inFlightSummarizations ++ [(t, true)],
               sumCalls := s.sumCalls ++ [(t, true)] } := by
  unfold handleSummarizeNotesStart
  repeat' split
  all_goals simp_all
  all_goals omega

theorem sumFinish_fields (s : AppState) (f : Bool) (r : Except String String) :
    (handleSummarizeNotesFinish s f r).currentTranscript =
      s.currentTranscript ∧
    (handleSummarizeNotesFinish s f r).audioChunkQueue = s.audioChunkQueue ∧
    (handleSummarizeNotesFinish s f r).isProcessingAudioChunk =
      s.isProcessingAudioChunk ∧
    (handleSummarizeNotesFinish s f r).summarizeTimeout =
      s.summarizeTimeout ∧
    (handleSummarizeNotesFinish s f r).isRecording = s.isRecording ∧
    (handleSummarizeNotesFinish s f r).finalizePollPending =
      s.finalizePollPending ∧
    (handleSummarizeNotesFinish s f r).now = s.now ∧
    (handleSummarizeNotesFinish s f r).inFlightTranscriptions =
      s.inFlightTranscriptions ∧
    (handleSummarizeNotesFinish s f r).inFlightSummarizations =
      s.inFlightSummarizations ∧
    (handleSummarizeNotesFinish s f r).txCalls = s.txCalls ∧
    (handleSummarizeNotesFinish s f r).sumCalls = s.sumCalls ∧
    (handleSummarizeNotesFinish s f r).txResultsOk = s.txResultsOk ∧
    (handleSummarizeNotesFinish s f r).enqueuedChunks = s.enqueuedChunks := by
  unfold handleSummarizeNotesFinish
  repeat' split
  all_goals simp

theorem sumFinish_ok (s : AppState) (f : Bool) (t : String) :
    (handleSummarizeNotesFinish s f (.ok t)).currentNotes = t ∧
    (handleSummarizeNotesFinish s f (.ok t)).errorMessage = s.errorMessage ∧
    (s.appStatus = error →
      (handleSummarizeNotesFinish s f (.ok t)).appStatus = error) ∧
    (s.appStatus ≠ error →
      (f = true → (handleSummarizeNotesFinish s f (.ok t)).appStatus = idle) ∧
      (f = false →
        (handleSummarizeNotesFinish s f (.ok t)).appStatus =
          (if s.isRecording = true then capturingAudio
           else processingAudioChunk))) := by
  unfold handleSummarizeNotesFinish
  repeat' split
  all_goals simp_all

theorem sumFinish_err (s : AppState) (f : Bool) (m : String) :
    (handleSummarizeNotesFinish s f (.error m)).currentNotes = errorNotes m ∧
    (handleSummarizeNotesFinish s f (.error m)).appStatus = error ∧
    (handleSummarizeNotesFinish s f (.error m)).errorMessage = some m := by
  unfold handleSummarizeNotesFinish
  simp

theorem checkFin_cases (s : AppState) :
    (s.appStatus = error ∧ checkAndFinalize s = s) ∨
    (s.appStatus ≠ error ∧ ¬(s.audioChunkQueue = [] ∧
        s.isProcessingAudioChunk = false) ∧
      (checkAndFinalize s).appStatus = processingAudioChunk ∧
      (checkAndFinalize s).finalizePollPending = true ∧
      (checkAndFinalize s).currentTranscript = s.currentTranscript ∧
      (checkAndFinalize s).currentNotes = s.currentNotes ∧
      (checkAndFinalize s).errorMessage = s.errorMessage ∧
      (checkAndFinalize s).audioChunkQueue = s.audioChunkQueue ∧
      (checkAndFinalize s).isProcessingAudioChunk =
        s.isProcessingAudioChunk ∧
      (checkAndFinalize s).summarizeTimeout = s.summarizeTimeout ∧
      (checkAndFinalize s).isRecording = s.isRecording ∧
      (checkAndFinalize s).now = s.now ∧
      (checkAndFinalize s).inFlightTranscriptions =
        s.inFlightTranscriptions ∧
      (checkAndFinalize s).inFlightSummarizations =
        s.inFlightSummarizations ∧
      (checkAndFinalize s).txCalls = s.txCalls ∧
      (checkAndFinalize s).sumCalls = s.sumCalls ∧
      (checkAndFinalize s).txResultsOk = s.txResultsOk ∧
      (checkAndFinalize s).enqueuedChunks = s.enqueuedChunks) ∨
    (s.appStatus ≠ error ∧ s.audioChunkQueue = [] ∧
      s.isProcessingAudioChunk = false ∧
      MIN_TRANSCRIPT_LENGTH_FOR_SUMMARY ≤
        (strTrim s.currentTranscript).length ∧
      checkAndFinalize s =
        handleSummarizeNotesStart s s.currentTranscript true) ∨
    (s.appStatus ≠ error ∧ s.audioChunkQueue = [] ∧
      s.isProcessingAudioChunk = false ∧
      (strTrim s.currentTranscript).length <
        MIN_TRANSCRIPT_LENGTH_FOR_SUMMARY ∧
      checkAndFinalize s =
        { s with appStatus := idle,
                 currentNotes :=
                   if strTrim s.currentTranscript = "" then initialNotes
                   else s.currentNotes }) := by
  unfold checkAndFinalize
  repeat' split
  all_goals simp_all
  all_goals omega

theorem txTail_fields (s : AppState) :
    (txFinishTail s).currentTranscript = s.currentTranscript ∧
    (txFinishTail s).currentNotes = s.currentNotes ∧
    (txFinishTail s).errorMessage = s.errorMessage ∧
    (txFinishTail s).audioChunkQueue = s.audioChunkQueue ∧
    (txFinishTail s).isProcessingAudioChunk = s.isProcessingAudioChunk ∧
    (txFinishTail s).summarizeTimeout = s.summarizeTimeout ∧
    (txFinishTail s).isRecording = s.isRecording ∧
    (txFinishTail s).finalizePollPending = s.finalizePollPending ∧
    (txFinishTail s).now = s.now ∧
    (txFinishTail s).inFlightTranscriptions = s.inFlightTranscriptions ∧
    (txFinishTail s).inFlightSummarizations = s.inFlightSummarizations ∧
    (txFinishTail s).txCalls = s.txCalls ∧
    (txFinishTail s).sumCalls = s.sumCalls ∧
    (txFinishTail s).txResultsOk = s.txResultsOk ∧
    (txFinishTail s).enqueuedChunks = s.enqueuedChunks := by
  unfold txFinishTail
  repeat' split
  all_goals simp

theorem txTail_status (s : AppState) :
    (txFinishTail s).appStatus = s.appStatus ∨
    ((txFinishTail s).appStatus = idle ∧ s.appStatus ≠ error ∧
      s.isRecording = false) ∨
    ((txFinishTail s).appStatus = capturingAudio ∧ s.isRecording = true ∧
      s.appStatus ≠ error ∧ s.appStatus ≠ summarizingNotes) := by
  unfold txFinishTail
  repeat' split
  all_goals simp_all

theorem txBody_ok (s : AppState) (text : String) :
    txFinishBody s (.ok text) =
      { s with txResultsOk := s.txResultsOk ++ [text],
               currentTranscript :=
                 if text ≠ "" then
                   appendTranscription s.currentTranscript text
                 else s.currentTranscript } := by
  rfl

theorem txBody_err (s : AppState) (msg : String) :
    txFinishBody s (.error msg) =
      { s with errorMessage := some msg, appStatus := error } := by
  rfl

/-! ### The single-session invariant -/

/-- Inductive invariant of every state reachable within one session (no
record-button press).  Its clauses record the serialization discipline the
handler guards enforce: the processing flag tracks the unique in-flight
transcription; at most one intermediate summarization is outstanding, and
while one is outstanding during recording the status reads
`summarizingNotes` (which is what blocks a second debounce fire); the
finalization machinery runs only after recording stopped and issues at most
one final call; `currentNotes` is one of the placeholder strings until a
summarization call exists. -/
structure SInv (s : AppState) : Prop where
  procFlag : s.isProcessingAudioChunk = true ↔ s.inFlightTranscriptions ≠ []
  txBound : s.inFlightTranscriptions.length ≤ 1
  interBound : countInter s.inFlightSummarizations ≤ 1
  interStatus : s.isRecording = true → 1 ≤ countInter s.inFlightSummarizations →
    s.appStatus = summarizingNotes ∨ s.appStatus = error
  recNoPoll : s.isRecording = true → s.finalizePollPending = false
  noFinalYet : s.isRecording = true ∨ s.finalizePollPending = true →
    countFinal s.sumCalls = 0
  finalBound : countFinal s.sumCalls ≤ 1
  finalInFlight : countFinal s.inFlightSummarizations ≤ countFinal s.sumCalls
  finalNotRec : 1 ≤ countFinal s.inFlightSummarizations → s.isRecording = false
  pollTimer : s.finalizePollPending = true → s.summarizeTimeout = none
  notesState : isPlaceholderNotes s.currentNotes ∨ s.sumCalls ≠ [] ∨
    s.appStatus = error
  sumIssued : s.inFlightSummarizations.length ≤ s.sumCalls.length

theorem SInv_effect (s : AppState) (h : SInv s) :
    SInv (summarizeDebounceEffect s) := by
  obtain ⟨f1, f2, f3, f4, f5, f6, f7, f8, f9, f10, f11, f12, f13, f14⟩ :=
    effect_fields s
  refine ⟨?_, ?_, ?_, ?_, ?_, ?_, ?_, ?_, ?_, ?_, ?_, ?_⟩
  · rw [f5, f9]; exact h.procFlag
  · rw [f9]; exact h.txBound
  · rw [f10]; exact h.interBound
  · rw [f6, f10, f2]; exact h.interStatus
  · rw [f6, f7]; exact h.recNoPoll
  · rw [f6, f7, f12]; exact h.noFinalYet
  · rw [f12]; exact h.finalBound
  · rw [f10, f12]; exact h.finalInFlight
  · rw [f10, f6]; exact h.finalNotRec
  · rw [f7]
    intro hp
    rcases effect_timer s with ht | hr
    · exact ht
    · rw [h.recNoPoll hr] at hp; cases hp
  · rcases effect_notes s with hn | hn
    · rw [hn, f12, f2]; exact h.notesState
    · rw [hn]; exact Or.inl (Or.inr (Or.inl rfl))
  · rw [f10, f12]; exact h.sumIssued

theorem SInv_step_of_core (s : AppState) (e : Event)
    (h : SInv (coreStep s e)) : SInv (step s e) := by
  unfold step
  split
  · exact h
  · exact SInv_effect _ h

theorem SInv_doPQ (u : AppState) (h : SInv u) :
    SInv (doProcessAudioChunkQueue u) := by
  rcases doPQ_eq u with ⟨heq, _⟩ | ⟨c, rest, hq, hproc, herr, heq⟩
  · rw [heq]; exact h
  · rw [heq]
    obtain ⟨f1, f2, f3, f4, f5, f6, f7, f8, f9, f10, f11, f12, f13, f14, f15⟩ :=
      txStart_fields { u with audioChunkQueue := rest } c
    have hempty : u.inFlightTranscriptions = [] := by
      by_contra hne
      rw [h.procFlag.mpr hne] at hproc
      cases hproc
    obtain ⟨g1, g2, g3⟩ := txStart_status { u with audioChunkQueue := rest } c
    refine ⟨?_, ?_, ?_, ?_, ?_, ?_, ?_, ?_, ?_, ?_, ?_, ?_⟩
    · rw [f5, f10]; simp
    · rw [f10]; simp [hempty]
    · rw [f11]; exact h.interBound
    · rw [f7, f11]
      intro hrec hcnt
      rcases h.interStatus hrec hcnt with hs | hs
      · exact Or.inl (g3 hs)
      · exact Or.inr (g2 hs)
    · rw [f7, f8]; exact h.recNoPoll
    · rw [f7, f8, f13]; exact h.noFinalYet
    · rw [f13]; exact h.finalBound
    · rw [f11, f13]; exact h.finalInFlight
    · rw [f11, f7]; exact h.finalNotRec
    · rw [f8, f6]; exact h.pollTimer
    · rw [f2, f13]
      rcases h.notesState with hn | hn | hn
      · exact Or.inl hn
      · exact Or.inr (Or.inl hn)
      · exact Or.inr (Or.inr (g2 hn))
    · rw [f11, f13]; exact h.sumIssued

theorem SInv_sumStart_fire (u : AppState) (t : String) (h : SInv u)
    (hrec : u.isRecording = true) (hs1 : u.appStatus ≠ error)
    (hs2 : u.appStatus ≠ summarizingNotes) :
    SInv (handleSummarizeNotesStart u t false) := by
  obtain ⟨f1, f2, f3, f4, f5, f6, f7, f8, f9, f10, f11, f12⟩ :=
    sumStart_fields u t false
  have hinter : countInter u.inFlightSummarizations = 0 := by
    by_contra hne
    rcases h.interStatus hrec (by omega) with hs | hs
    · exact hs2 hs
    · exact hs1 hs
  rcases sumStart_cases u t false with ⟨g1, g2, g3, g4⟩ |
    ⟨g1, g2, g3, g4, g5, g6⟩
  · refine ⟨?_, ?_, ?_, ?_, ?_, ?_, ?_, ?_, ?_, ?_, ?_, ?_⟩
    · rw [f4, f9]; exact h.procFlag
    · rw [f9]; exact h.txBound
    · rw [g1]; exact h.interBound
    · rw [f6, g1]
      intro h1 h2
      rcases g4 with g4 | g4
      · rw [g4]; exact h.interStatus h1 h2
      · rcases h.interStatus h1 h2 with hs | hs
        · exact absurd hs hs2
        · exact absurd hs hs1
    · rw [f6, f7]; exact h.recNoPoll
    · rw [f6, f7, g2]; exact h.noFinalYet
    · rw [g2]; exact h.finalBound
    · rw [g1, g2]; exact h.finalInFlight
    · rw [g1, f6]; exact h.finalNotRec
    · rw [f7, f5]; exact h.pollTimer
    · rcases g3 with g3 | g3 | g3
      · rw [g3, g2]
        rcases h.notesState with hn | hn | hn
        · exact Or.inl hn
        · exact Or.inr (Or.inl hn)
        · exact absurd hn hs1
      · rw [g3]; exact Or.inl (Or.inr (Or.inr rfl))
      · rw [g3]; exact Or.inl (Or.inr (Or.inl rfl))
    · rw [g1, g2]; exact h.sumIssued
  · refine ⟨?_, ?_, ?_, ?_, ?_, ?_, ?_, ?_, ?_, ?_, ?_, ?_⟩
    · rw [f4, f9]; exact h.procFlag
    · rw [f9]; exact h.txBound
    · rw [g1, countInter_append, countInter_single]
      simp [hinter]
    · intro _ _; exact Or.inl g3
    · rw [f6, f7]; exact h.recNoPoll
    · rw [f6, f7, g2, countFinal_append, countFinal_single]
      simpa using h.noFinalYet
    · rw [g2, countFinal_append, countFinal_single]
      simpa using h.finalBound
    · rw [g1, g2, countFinal_append, countFinal_append, countFinal_single]
      have := h.finalInFlight
      omega
    · rw [g1, countFinal_append, countFinal_single, f6]
      simpa using h.finalNotRec
    · rw [f7, f5]; exact h.pollTimer
    · rw [g2]; simp
    · rw [g1, g2]
      simp only [List.length_append, List.length_cons, List.length_nil]
      have := h.sumIssued
      omega

theorem SInv_checkFin (u : AppState) (h : SInv u)
    (hrec : u.isRecording = false) (hpoll : u.finalizePollPending = false)
    (hfin : countFinal u.sumCalls = 0) (htimer : u.summarizeTimeout = none) :
    SInv (checkAndFinalize u) := by
  rcases checkFin_cases u with ⟨_, heq⟩ |
    ⟨herr, _, g1, g2, g3, g4, g5, g6, g7, g8, g9, g10, g11, g12, g13, g14,
      g15, g16⟩ |
    ⟨herr, hq, hproc, hlen, heq⟩ | ⟨herr, hq, hproc, hlen, heq⟩
  · rw [heq]; exact h
  · refine ⟨?_, ?_, ?_, ?_, ?_, ?_, ?_, ?_, ?_, ?_, ?_, ?_⟩
    · rw [g7, g11]; exact h.procFlag
    · rw [g11]; exact h.txBound
    · rw [g12]; exact h.interBound
    · rw [g9]; intro h1; rw [hrec] at h1; cases h1
    · rw [g9]; intro h1; rw [hrec] at h1; cases h1
    · rw [g14]; intro _; exact hfin
    · rw [g14]; exact h.finalBound
    · rw [g12, g14]; exact h.finalInFlight
    · rw [g12, g9]; intro _; exact hrec
    · rw [g8]; intro _; exact htimer
    · rw [g4, g14]
      rcases h.notesState with hn | hn | hn
      · exact Or.inl hn
      · exact Or.inr (Or.inl hn)
      · exact absurd hn herr
    · rw [g12, g14]; exact h.sumIssued
  · rw [heq, sumStart_issue u u.currentTranscript hlen]
    refine ⟨?_, ?_, ?_, ?_, ?_, ?_, ?_, ?_, ?_, ?_, ?_, ?_⟩
    · exact h.procFlag
    · exact h.txBound
    · simp only [countInter_append, countInter_single]
      simpa using h.interBound
    · intro h1; rw [hrec] at h1; cases h1
    · intro h1; rw [hrec] at h1; cases h1
    · intro h1
      rcases h1 with h1 | h1
      · rw [hrec] at h1; cases h1
      · rw [hpoll] at h1; cases h1
    · simp only [countFinal_append, countFinal_single, if_true]
      simp [hfin]
    · simp only [countFinal_append, countFinal_single, if_true]
      have h2 := h.finalInFlight
      omega
    · intro _; exact hrec
    · intro h1; rw [hpoll] at h1; cases h1
    · simp
    · simp only [List.length_append, List.length_cons, List.length_nil]
      have := h.sumIssued
      omega
  · rw [heq]
    refine ⟨?_, ?_, ?_, ?_, ?_, ?_, ?_, ?_, ?_, ?_, ?_, ?_⟩
    · exact h.procFlag
    · exact h.txBound
    · exact h.interBound
    · intro h1; rw [hrec] at h1; cases h1
    · intro h1; rw [hrec] at h1; cases h1
    · intro h1
      rcases h1 with h1 | h1
      · rw [hrec] at h1; cases h1
      · rw [hpoll] at h1; cases h1
    · exact h.finalBound
    · exact h.finalInFlight
    · intro _; exact hrec
    · intro h1; rw [hpoll] at h1; cases h1
    · rcases h.notesState with hn | hn | hn
      · split
        · exact Or.inl (Or.inl rfl)
        · exact Or.inl hn
      · split
        · exact Or.inl (Or.inl rfl)
        · exact Or.inr (Or.inl hn)
      · exact absurd hn herr
    · exact h.sumIssued

theorem length_eraseIdx_le {α : Type} (l : List α) (i : Nat) :
    (l.eraseIdx i).length ≤ l.length := by
  induction l generalizing i with
  | nil => simp [List.eraseIdx]
  | cons a l ih =>
      cases i with
      | zero => simp [List.eraseIdx]
      | succ j =>
          simp only [List.eraseIdx, List.length_cons]
          exact Nat.succ_le_succ (ih j)

theorem length_pos_of_get? {α : Type} (l : List α) (i : Nat) (a : α)
    (h : l.get? i = some a) : 1 ≤ l.length := by
  cases l with
  | nil => cases i <;> simp [List.get?] at h
  | cons b l => simp

theorem SInv_txTail (u : AppState) (h : SInv u) : SInv (txFinishTail u) := by
  obtain ⟨f1, f2, f3, f4, f5, f6, f7, f8, f9, f10, f11, f12, f13, f14, f15⟩ :=
    txTail_fields u
  refine ⟨?_, ?_, ?_, ?_, ?_, ?_, ?_, ?_, ?_, ?_, ?_, ?_⟩
  · rw [f5, f10]; exact h.procFlag
  · rw [f10]; exact h.txBound
  · rw [f11]; exact h.interBound
  · rw [f7, f11]
    intro hrec hcnt
    rcases txTail_status u with hs | ⟨_, _, hnr⟩ | ⟨_, _, he, hsum⟩
    · rw [hs]; exact h.interStatus hrec hcnt
    · rw [hrec] at hnr; cases hnr
    · rcases h.interStatus hrec hcnt with hx | hx
      · exact absurd hx hsum
      · exact absurd hx he
  · rw [f7, f8]; exact h.recNoPoll
  · rw [f7, f8, f13]; exact h.noFinalYet
  · rw [f13]; exact h.finalBound
  · rw [f11, f13]; exact h.finalInFlight
  · rw [f11, f7]; exact h.finalNotRec
  · rw [f8, f6]; exact h.pollTimer
  · rw [f2, f13]
    rcases h.notesState with hn | hn | hn
    · exact Or.inl hn
    · exact Or.inr (Or.inl hn)
    · rcases txTail_status u with hs | ⟨_, he, _⟩ | ⟨_, _, he, _⟩
      · rw [hs]; exact Or.inr (Or.inr hn)
      · exact absurd hn he
      · exact absurd hn he
  · rw [f11, f13]; exact h.sumIssued

theorem SInv_txFinish (s : AppState) (c : String) (rest : List String)
    (r : Except String String) (h : SInv s)
    (hfl : s.inFlightTranscriptions = c :: rest) :
    SInv (handleChunkTranscriptionFinish
      { s with inFlightTranscriptions := rest } r) := by
  have hrest : rest = [] := by
    have := h.txBound
    rw [hfl] at this
    simp at this
    exact this
  unfold handleChunkTranscriptionFinish
  apply SInv_txTail
  apply SInv_doPQ
  subst hrest
  cases r with
  | ok text =>
      rw [txBody_ok]
      refine ⟨?_, ?_, ?_, ?_, ?_, ?_, ?_, ?_, ?_, ?_, ?_, ?_⟩
      · simp
      · simp
      · exact h.interBound
      · exact h.interStatus
      · exact h.recNoPoll
      · exact h.noFinalYet
      · exact h.finalBound
      · exact h.finalInFlight
      · exact h.finalNotRec
      · exact h.pollTimer
      · exact h.notesState
      · exact h.sumIssued
  | error msg =>
      rw [txBody_err]
      refine ⟨?_, ?_, ?_, ?_, ?_, ?_, ?_, ?_, ?_, ?_, ?_, ?_⟩
      · simp
      · simp
      · exact h.interBound
      · intro _ _; exact Or.inr rfl
      · exact h.recNoPoll
      · exact h.noFinalYet
      · exact h.finalBound
      · exact h.finalInFlight
      · exact h.finalNotRec
      · exact h.pollTimer
      · exact Or.inr (Or.inr rfl)
      · exact h.sumIssued

theorem SInv_sumComplete (s : AppState) (i : Nat) (t : String) (f : Bool)
    (r : Except String String) (h : SInv s)
    (hget : s.inFlightSummarizations.get? i = some (t, f)) :
    SInv (handleSummarizeNotesFinish
      { s with inFlightSummarizations :=
          s.inFlightSummarizations.eraseIdx i } f r) := by
  obtain ⟨c1, c2⟩ := count_eraseIdx s.inFlightSummarizations i t f hget
  obtain ⟨g1, g2, g3, g4, g5, g6, g7, g8, g9, g10, g11, g12, g13⟩ :=
    sumFinish_fields
      { s with inFlightSummarizations := s.inFlightSummarizations.eraseIdx i }
      f r
  have hlen : 1 ≤ s.inFlightSummarizations.length :=
    length_pos_of_get? _ i _ hget
  have hcallsne : s.sumCalls ≠ [] := by
    have hsi := h.sumIssued
    intro hnil
    rw [hnil] at hsi
    simp only [List.length_nil, Nat.le_zero, List.length_eq_zero] at hsi
    rw [hsi] at hlen
    simp at hlen
  have hv : ({ s with inFlightSummarizations :=
      s.inFlightSummarizations.eraseIdx i } : AppState).inFlightSummarizations
      = s.inFlightSummarizations.eraseIdx i := rfl
  have hv2 : ({ s with inFlightSummarizations :=
      s.inFlightSummarizations.eraseIdx i } : AppState).sumCalls
      = s.sumCalls := rfl
  refine ⟨?_, ?_, ?_, ?_, ?_, ?_, ?_, ?_, ?_, ?_, ?_, ?_⟩
  · rw [g3, g8]; exact h.procFlag
  · rw [g8]; exact h.txBound
  · rw [g9, hv]
    have hib := h.interBound
    cases f <;> simp only [if_true, if_false, Bool.false_eq_true] at c1 <;> omega
  · rw [g5, g9, hv]
    intro hrec hcnt
    cases f
    · simp only [Bool.false_eq_true, if_neg, if_false] at c1
      have hib := h.interBound
      omega
    · simp only [if_true] at c2
      have hnr := h.finalNotRec (by omega)
      rw [hnr] at hrec
      cases hrec
  · rw [g5, g6]; exact h.recNoPoll
  · rw [g5, g6, g11]; exact h.noFinalYet
  · rw [g11]; exact h.finalBound
  · rw [g9, g11, hv, hv2]
    have hfi := h.finalInFlight
    cases f <;> simp only [if_true, if_false, Bool.false_eq_true] at c2 <;> omega
  · rw [g9, g5, hv]
    intro hcnt
    apply h.finalNotRec
    cases f <;> simp only [if_true, if_false, Bool.false_eq_true] at c2 <;> omega
  · rw [g6, g4]; exact h.pollTimer
  · rw [g11]
    cases r with
    | ok summary => exact Or.inr (Or.inl hcallsne)
    | error msg =>
        obtain ⟨_, he, _⟩ := sumFinish_err
          { s with inFlightSummarizations :=
              s.inFlightSummarizations.eraseIdx i } f msg
        exact Or.inr (Or.inr he)
  · rw [g9, g11, hv, hv2]
    have h1 := length_eraseIdx_le s.inFlightSummarizations i
    have hsi := h.sumIssued
    omega

theorem SInv_copy (s u : AppState)
    (h : SInv s)
    (e1 : u.isProcessingAudioChunk = s.isProcessingAudioChunk)
    (e2 : u.inFlightTranscriptions = s.inFlightTranscriptions)
    (e3 : u.inFlightSummarizations = s.inFlightSummarizations)
    (e4 : u.isRecording = s.isRecording)
    (e5 : u.appStatus = s.appStatus)
    (e6 : u.finalizePollPending = s.finalizePollPending)
    (e7 : u.sumCalls = s.sumCalls)
    (e8 : u.summarizeTimeout = s.summarizeTimeout ∨ u.summarizeTimeout = none)
    (e9 : u.currentNotes = s.currentNotes) : SInv u := by
  refine ⟨?_, ?_, ?_, ?_, ?_, ?_, ?_, ?_, ?_, ?_, ?_, ?_⟩
  · rw [e1, e2]; exact h.procFlag
  · rw [e2]; exact h.txBound
  · rw [e3]; exact h.interBound
  · rw [e4, e3, e5]; exact h.interStatus
  · rw [e4, e6]; exact h.recNoPoll
  · rw [e4, e6, e7]; exact h.noFinalYet
  · rw [e7]; exact h.finalBound
  · rw [e3, e7]; exact h.finalInFlight
  · rw [e3, e4]; exact h.finalNotRec
  · rcases e8 with e8 | e8
    · rw [e6, e8]; exact h.pollTimer
    · intro _; exact e8
  · rw [e9, e7, e5]; exact h.notesState
  · rw [e3, e7]; exact h.sumIssued

theorem SInv_coreStep (s : AppState) (e : Event) (h : SInv s)
    (hnt : e.isToggle = false) : SInv (coreStep s e) := by
  cases e with
  | chunkArrive c =>
      rw [show coreStep s (.chunkArrive c) = onChunkAvailable s c from rfl]
      unfold onChunkAvailable
      split_ifs with herr
      · exact h
      · exact SInv_doPQ _
          (SInv_copy s _ h rfl rfl rfl rfl rfl rfl rfl (Or.inl rfl) rfl)
  | txComplete r =>
      rw [show coreStep s (.txComplete r) =
        (match s.inFlightTranscriptions with
         | [] => s
         | _ :: rest =>
             handleChunkTranscriptionFinish
               { s with inFlightTranscriptions := rest } r) from rfl]
      split
      · exact h
      · next c rest hfl => exact SInv_txFinish s c rest r h hfl
  | sumComplete i r =>
      rw [show coreStep s (.sumComplete i r) =
        (match s.inFlightSummarizations.get? i with
         | none => s
         | some (_, isFinal) =>
             handleSummarizeNotesFinish
               { s with inFlightSummarizations :=
                   s.inFlightSummarizations.eraseIdx i } isFinal r) from rfl]
      split
      · exact h
      · next t f hget => exact SInv_sumComplete s i t f r h hget
  | timeoutFire =>
      rw [show coreStep s .timeoutFire = summarizeTimeoutFire s from rfl]
      unfold summarizeTimeoutFire
      split
      · exact h
      · split_ifs with hd hg
        · obtain ⟨hrec, _, herr, hsum⟩ := hg
          exact SInv_sumStart_fire _ _
            (SInv_copy s _ h rfl rfl rfl rfl rfl rfl rfl (Or.inr rfl) rfl)
            hrec herr hsum
        · exact SInv_copy s _ h rfl rfl rfl rfl rfl rfl rfl (Or.inr rfl) rfl
        · exact h
  | pollFire =>
      rw [show coreStep s .pollFire = finalizePollFire s from rfl]
      unfold finalizePollFire
      split_ifs with hp
      · have hrec : s.isRecording = false := by
          by_contra hne
          rw [Bool.not_eq_false] at hne
          rw [h.recNoPoll hne] at hp
          cases hp
        apply SInv_checkFin
        · refine ⟨h.procFlag, h.txBound, h.interBound, ?_, ?_, ?_,
            h.finalBound, h.finalInFlight, ?_, ?_, h.notesState, h.sumIssued⟩
          · intro h1 _; simp [hrec] at h1
          · intro h1; simp [hrec] at h1
          · intro _; exact h.noFinalYet (Or.inr hp)
          · intro _; exact hrec
          · intro h1; simp at h1
        · exact hrec
        · rfl
        · exact h.noFinalYet (Or.inr hp)
        · exact h.pollTimer hp
      · exact h
  | recordingStop =>
      rw [show coreStep s .recordingStop =
        (if s.isRecording = true then onRecordingStop s else s) from rfl]
      unfold onRecordingStop
      split_ifs with hr
      · apply SInv_checkFin
        · refine ⟨h.procFlag, h.txBound, h.interBound, ?_, ?_, ?_,
            h.finalBound, h.finalInFlight, ?_, ?_, h.notesState, h.sumIssued⟩
          · intro h1 _; simp at h1
          · intro h1; simp at h1
          · intro _; exact h.noFinalYet (Or.inl hr)
          · intro _; rfl
          · intro _; rfl
        · rfl
        · exact h.recNoPoll hr
        · exact h.noFinalYet (Or.inl hr)
        · rfl
      · exact h
  | tick d =>
      rw [show coreStep s (.tick d) = { s with now := s.now + d } from rfl]
      exact SInv_copy s _ h rfl rfl rfl rfl rfl rfl rfl (Or.inl rfl) rfl
  | toggle ok => simp [Event.isToggle] at hnt

theorem SInv_sessionStart : SInv sessionStart := by
  refine ⟨?_, ?_, ?_, ?_, ?_, ?_, ?_, ?_, ?_, ?_, ?_, ?_⟩ <;> decide

theorem SInv_run (evs : List Event) (h : noToggle evs) :
    SInv (run sessionStart evs) := by
  induction evs using List.reverseRecOn with
  | nil => exact SInv_sessionStart
  | append_singleton evs e ih =>
      rw [run_append]
      have h1 : noToggle evs := fun x hx => h x (by simp [hx])
      have h2 : e.isToggle = false := h e (by simp)
      exact SInv_step_of_core _ _ (SInv_coreStep _ _ (ih h1) h2)

/-! ### The transcript/ghost trace invariant -/

/-- Within one session, the transcript always equals the space-joined
concatenation of the successfully returned chunk texts (in completion
order), and the enqueued chunks always split into the chunks already sent
to the transcription gateway (in enqueue order) followed by the queue. -/
def TraceInv (s : AppState) : Prop :=
  s.currentTranscript = joinChunkTexts s.txResultsOk ∧
  s.enqueuedChunks = s.txCalls ++ s.audioChunkQueue

theorem joinChunkTexts_append (l : List String) (x : String) :
    joinChunkTexts (l ++ [x]) =
      if x = "" then joinChunkTexts l
      else appendTranscription (joinChunkTexts l) x := by
  simp [joinChunkTexts, List.foldl_append]

theorem TraceInv_doPQ (u : AppState) (h : TraceInv u) :
    TraceInv (doProcessAudioChunkQueue u) := by
  rcases doPQ_eq u with ⟨heq, _⟩ | ⟨c, rest, hq, _, _, heq⟩
  · rw [heq]; exact h
  · rw [heq]
    obtain ⟨f1, f2, f3, f4, f5, f6, f7, f8, f9, f10, f11, f12, f13, f14, f15⟩ :=
      txStart_fields { u with audioChunkQueue := rest } c
    constructor
    · rw [f1, f14]; exact h.1
    · rw [f15, f12, f4]
      show u.enqueuedChunks = (u.txCalls ++ [c]) ++ rest
      rw [h.2, hq]
      simp

theorem TraceInv_txTail (u : AppState) (h : TraceInv u) :
    TraceInv (txFinishTail u) := by
  obtain ⟨f1, f2, f3, f4, f5, f6, f7, f8, f9, f10, f11, f12, f13, f14, f15⟩ :=
    txTail_fields u
  exact ⟨by rw [f1, f14]; exact h.1, by rw [f15, f12, f4]; exact h.2⟩

theorem TraceInv_checkFin (u : AppState) (h : TraceInv u) :
    TraceInv (checkAndFinalize u) := by
  rcases checkFin_cases u with ⟨_, heq⟩ |
    ⟨_, _, _, _, g3, _, _, g6, _, _, _, _, _, _, g13, _, g15, g16⟩ |
    ⟨_, _, _, _, heq⟩ | ⟨_, _, _, _, heq⟩
  · rw [heq]; exact h
  · exact ⟨by rw [g3, g15]; exact h.1, by rw [g16, g13, g6]; exact h.2⟩
  · rw [heq]
    obtain ⟨f1, f2, f3, f4, f5, f6, f7, f8, f9, f10, f11, f12⟩ :=
      sumStart_fields u u.currentTranscript true
    exact ⟨by rw [f1, f11]; exact h.1, by rw [f12, f10, f3]; exact h.2⟩
  · rw [heq]; exact ⟨h.1, h.2⟩

theorem TraceInv_coreStep (s : AppState) (e : Event) (h : TraceInv s)
    (hnt : e.isToggle = false) : TraceInv (coreStep s e) := by
  cases e with
  | chunkArrive c =>
      rw [show coreStep s (.chunkArrive c) = onChunkAvailable s c from rfl]
      unfold onChunkAvailable
      split_ifs with herr
      · exact h
      · apply TraceInv_doPQ
        refine ⟨h.1, ?_⟩
        show s.enqueuedChunks ++ [c] = s.txCalls ++ (s.audioChunkQueue ++ [c])
        rw [h.2, List.append_assoc]
  | txComplete r =>
      rw [show coreStep s (.txComplete r) =
        (match s.inFlightTranscriptions with
         | [] => s
         | _ :: rest =>
             handleChunkTranscriptionFinish
               { s with inFlightTranscriptions := rest } r) from rfl]
      split
      · exact h
      · next c rest hfl =>
          unfold handleChunkTranscriptionFinish
          apply TraceInv_txTail
          apply TraceInv_doPQ
          cases r with
          | ok text =>
              rw [txBody_ok]
              constructor
              · show (if text ≠ "" then
                    appendTranscription s.currentTranscript text
                  else s.currentTranscript) =
                  joinChunkTexts (s.txResultsOk ++ [text])
                rw [joinChunkTexts_append]
                by_cases htext : text = ""
                · simp only [htext, ite_true, if_pos rfl]
                  simp
                  exact h.1
                · simp only [htext, if_neg htext]
                  simp [htext]
                  rw [h.1]
              · exact h.2
          | error msg =>
              rw [txBody_err]
              exact ⟨h.1, h.2⟩
  | sumComplete i r =>
      rw [show coreStep s (.sumComplete i r) =
        (match s.inFlightSummarizations.get? i with
         | none => s
         | some (_, isFinal) =>
             handleSummarizeNotesFinish
               { s with inFlightSummarizations :=
                   s.inFlightSummarizations.eraseIdx i } isFinal r) from rfl]
      split
      · exact h
      · next t f hget =>
          obtain ⟨g1, g2, g3, g4, g5, g6, g7, g8, g9, g10, g11, g12, g13⟩ :=
            sumFinish_fields
              { s with inFlightSummarizations :=
                  s.inFlightSummarizations.eraseIdx i } f r
          exact ⟨by rw [g1, g12]; exact h.1, by rw [g13, g10, g2]; exact h.2⟩
  | timeoutFire =>
      rw [show coreStep s .timeoutFire = summarizeTimeoutFire s from rfl]
      unfold summarizeTimeoutFire
      split
      · exact h
      · split_ifs with hd hg
        · obtain ⟨f1, f2, f3, f4, f5, f6, f7, f8, f9, f10, f11, f12⟩ :=
            sumStart_fields { s with summarizeTimeout := none }
              s.currentTranscript false
          exact ⟨by rw [f1, f11]; exact h.1, by rw [f12, f10, f3]; exact h.2⟩
        · exact ⟨h.1, h.2⟩
        · exact h
  | pollFire =>
      rw [show coreStep s .pollFire = finalizePollFire s from rfl]
      unfold finalizePollFire
      split_ifs with hp
      · exact TraceInv_checkFin _ ⟨h.1, h.2⟩
      · exact h
  | recordingStop =>
      rw [show coreStep s .recordingStop =
        (if s.isRecording = true then onRecordingStop s else s) from rfl]
      unfold onRecordingStop
      split_ifs with hr
      · exact TraceInv_checkFin _ ⟨h.1, h.2⟩
      · exact h
  | tick d =>
      rw [show coreStep s (.tick d) = { s with now := s.now + d } from rfl]
      exact ⟨h.1, h.2⟩
  | toggle ok => simp [Event.isToggle] at hnt

theorem TraceInv_step (s : AppState) (e : Event) (h : TraceInv s)
    (hnt : e.isToggle = false) : TraceInv (step s e) := by
  have hcore := TraceInv_coreStep s e h hnt
  unfold step
  split
  · exact hcore
  · obtain ⟨f1, _, _, f4, _, _, _, _, _, _, f11, _, f13, f14⟩ :=
      effect_fields (coreStep s e)
    exact ⟨by rw [f1, f13]; exact hcore.1,
      by rw [f14, f11, f4]; exact hcore.2⟩

theorem TraceInv_run (evs : List Event) (h : noToggle evs) :
    TraceInv (run sessionStart evs) := by
  induction evs using List.reverseRecOn with
  | nil => exact ⟨rfl, rfl⟩
  | append_singleton evs e ih =>
      rw [run_append]
      have h1 : noToggle evs := fun x hx => h x (by simp [hx])
      have h2 : e.isToggle = false := h e (by simp)
      exact TraceInv_step _ _ (ih h1) h2

/-! ### Behaviour in the sticky error state -/

/-- Whether an event is the completion of a transcription call. -/
def Event.isTxDone : Event → Bool
  | .txComplete _ => true
  | _ => false

/-- Whether an event is the completion of a summarization call. -/
def Event.isSumDone : Event → Bool
  | .sumComplete _ _ => true
  | _ => false

theorem errorStep_facts (s : AppState) (e : Event)
    (herr : s.appStatus = error) (hnt : e.isToggle = false) :
    (step s e).appStatus = error ∧
    (step s e).txCalls = s.txCalls ∧
    (step s e).sumCalls = s.sumCalls ∧
    (e.isTxDone = false → e.isSumDone = false →
      (step s e).currentTranscript = s.currentTranscript ∧
      (step s e).currentNotes = s.currentNotes) := by
  have heff : ∀ u : AppState, u.appStatus = error →
      (summarizeDebounceEffect u).appStatus = error ∧
      (summarizeDebounceEffect u).txCalls = u.txCalls ∧
      (summarizeDebounceEffect u).sumCalls = u.sumCalls ∧
      (summarizeDebounceEffect u).currentTranscript = u.currentTranscript ∧
      (summarizeDebounceEffect u).currentNotes = u.currentNotes := by
    intro u hu
    unfold summarizeDebounceEffect
    split_ifs with h1 h2
    · simp [hu]
    all_goals exact absurd (Or.inr (Or.inr (Or.inl hu))) h1

  have hstep : ∀ u : AppState, u = coreStep s e →
      u.appStatus = error ∧ u.txCalls = s.txCalls ∧ u.sumCalls = s.sumCalls ∧
      (e.isTxDone = false → e.isSumDone = false →
        u.currentTranscript = s.currentTranscript ∧
        u.currentNotes = s.currentNotes) →
      (step s e).appStatus = error ∧
      (step s e).txCalls = s.txCalls ∧
      (step s e).sumCalls = s.sumCalls ∧
      (e.isTxDone = false → e.isSumDone = false →
        (step s e).currentTranscript = s.currentTranscript ∧
        (step s e).currentNotes = s.currentNotes) := by
    intro u hu hfacts
    subst hu
    unfold step
    split
    · exact hfacts
    · obtain ⟨k1, k2, k3, k4, k5⟩ := heff _ hfacts.1
      refine ⟨k1, by rw [k2]; exact hfacts.2.1,
        by rw [k3]; exact hfacts.2.2.1, ?_⟩
      intro hx hs
      obtain ⟨m1, m2⟩ := hfacts.2.2.2 hx hs
      exact ⟨by rw [k4]; exact m1, by rw [k5]; exact m2⟩
  apply hstep _ rfl
  cases e with
  | chunkArrive c =>
      rw [show coreStep s (.chunkArrive c) = onChunkAvailable s c from rfl]
      unfold onChunkAvailable
      rw [if_pos herr]
      exact ⟨herr, rfl, rfl, fun _ _ => ⟨rfl, rfl⟩⟩
  | txComplete r =>
      rw [show coreStep s (.txComplete r) =
        (match s.inFlightTranscriptions with
         | [] => s
         | _ :: rest =>
             handleChunkTranscriptionFinish
               { s with inFlightTranscriptions := rest } r) from rfl]
      split
      · exact ⟨herr, rfl, rfl, fun _ _ => ⟨rfl, rfl⟩⟩
      · next c rest hfl =>
          unfold handleChunkTranscriptionFinish
          have hbody : (txFinishBody
              { s with inFlightTranscriptions := rest } r).appStatus = error ∧
              (txFinishBody
                { s with inFlightTranscriptions := rest } r).txCalls =
                s.txCalls ∧
              (txFinishBody
                { s with inFlightTranscriptions := rest } r).sumCalls =
                s.sumCalls := by
            cases r with
            | ok text => rw [txBody_ok]; exact ⟨herr, rfl, rfl⟩
            | error msg => rw [txBody_err]; exact ⟨rfl, rfl, rfl⟩
          set w := ({ txFinishBody { s with inFlightTranscriptions := rest } r
            with isProcessingAudioChunk := false } : AppState) with hw
          have hwerr : w.appStatus = error := hbody.1
          have hdopq : doProcessAudioChunkQueue w = w := by
            rcases doPQ_eq w with ⟨heq, _⟩ | ⟨c2, rest2, _, _, herr2, _⟩
            · exact heq
            · exact absurd hwerr herr2
          rw [hdopq]
          obtain ⟨t1, t2, t3, t4, t5, t6, t7, t8, t9, t10, t11, t12, t13,
            t14, t15⟩ := txTail_fields w
          have htstat : (txFinishTail w).appStatus = error := by
            rcases txTail_status w with hx | ⟨_, hne, _⟩ | ⟨_, _, hne, _⟩
            · rw [hx]; exact hwerr
            · exact absurd hwerr hne
            · exact absurd hwerr hne
          refine ⟨htstat, by rw [t12]; exact hbody.2.1,
            by rw [t13]; exact hbody.2.2, ?_⟩
          intro hx _
          simp [Event.isTxDone] at hx
  | sumComplete i r =>
      rw [show coreStep s (.sumComplete i r) =
        (match s.inFlightSummarizations.get? i with
         | none => s
         | some (_, isFinal) =>
             handleSummarizeNotesFinish
               { s with inFlightSummarizations :=
                   s.inFlightSummarizations.eraseIdx i } isFinal r) from rfl]
      split
      · exact ⟨herr, rfl, rfl, fun _ _ => ⟨rfl, rfl⟩⟩
      · next t f hget =>
          obtain ⟨g1, g2, g3, g4, g5, g6, g7, g8, g9, g10, g11, g12, g13⟩ :=
            sumFinish_fields
              { s with inFlightSummarizations :=
                  s.inFlightSummarizations.eraseIdx i } f r
          have hstat : (handleSummarizeNotesFinish
              { s with inFlightSummarizations :=
                  s.inFlightSummarizations.eraseIdx i } f r).appStatus =
              error := by
            cases r with
            | ok summary =>
                obtain ⟨_, _, hx, _⟩ := sumFinish_ok
                  { s with inFlightSummarizations :=
                      s.inFlightSummarizations.eraseIdx i } f summary
                exact hx herr
            | error msg =>
                obtain ⟨_, hx, _⟩ := sumFinish_err
                  { s with inFlightSummarizations :=
                      s.inFlightSummarizations.eraseIdx i } f msg
                exact hx
          refine ⟨hstat, by rw [g10], by rw [g11], ?_⟩
          intro _ hx
          simp [Event.isSumDone] at hx
  | timeoutFire =>
      rw [show coreStep s .timeoutFire = summarizeTimeoutFire s from rfl]
      unfold summarizeTimeoutFire
      split
      · exact ⟨herr, rfl, rfl, fun _ _ => ⟨rfl, rfl⟩⟩
      · split_ifs with hd hg
        · exact absurd herr hg.2.2.1
        · exact ⟨herr, rfl, rfl, fun _ _ => ⟨rfl, rfl⟩⟩
        · exact ⟨herr, rfl, rfl, fun _ _ => ⟨rfl, rfl⟩⟩
  | pollFire =>
      rw [show coreStep s .pollFire = finalizePollFire s from rfl]
      unfold finalizePollFire
      split_ifs with hp
      · have : checkAndFinalize { s with finalizePollPending := false } =
            { s with finalizePollPending := false } := by
          rcases checkFin_cases { s with finalizePollPending := false } with
            ⟨_, heq⟩ | ⟨hne, _⟩ | ⟨hne, _⟩ | ⟨hne, _⟩
          · exact heq
          · exact absurd herr hne
          · exact absurd herr hne
          · exact absurd herr hne
        rw [this]
        exact ⟨herr, rfl, rfl, fun _ _ => ⟨rfl, rfl⟩⟩
      · exact ⟨herr, rfl, rfl, fun _ _ => ⟨rfl, rfl⟩⟩
  | recordingStop =>
      rw [show coreStep s .recordingStop =
        (if s.isRecording = true then onRecordingStop s else s) from rfl]
      unfold onRecordingStop
      split_ifs with hr
      · have : checkAndFinalize
            { s with isRecording := false, summarizeTimeout := none } =
            { s with isRecording := false, summarizeTimeout := none } := by
          rcases checkFin_cases
            { s with isRecording := false, summarizeTimeout := none } with
            ⟨_, heq⟩ | ⟨hne, _⟩ | ⟨hne, _⟩ | ⟨hne, _⟩
          · exact heq
          · exact absurd herr hne
          · exact absurd herr hne
          · exact absurd herr hne
        rw [this]
        exact ⟨herr, rfl, rfl, fun _ _ => ⟨rfl, rfl⟩⟩
      · exact ⟨herr, rfl, rfl, fun _ _ => ⟨rfl, rfl⟩⟩
  | tick d =>
      exact ⟨herr, rfl, rfl, fun _ _ => ⟨rfl, rfl⟩⟩
  | toggle ok => simp [Event.isToggle] at hnt

theorem errorRun_facts (s : AppState) (evs : List Event)
    (herr : s.appStatus = error) (hnt : noToggle evs) :
    (run s evs).appStatus = error ∧
    (run s evs).txCalls = s.txCalls ∧
    (run s evs).sumCalls = s.sumCalls := by
  induction evs using List.reverseRecOn with
  | nil => exact ⟨herr, rfl, rfl⟩
  | append_singleton evs e ih =>
      have h1 : noToggle evs := fun x hx => hnt x (by simp [hx])
      have h2 : e.isToggle = false := hnt e (by simp)
      obtain ⟨k1, k2, k3⟩ := ih h1
      obtain ⟨m1, m2, m3, _⟩ := errorStep_facts (run s evs) e k1 h2
      rw [run_append]
      exact ⟨m1, by rw [m2, k2], by rw [m3, k3]⟩

/-! ### Further helper lemmas for the claim theorems -/

theorem count_split (l : List (String × Bool)) :
    countInter l + countFinal l = l.length := by
  induction l with
  | nil => rfl
  | cons a l ih =>
      obtain ⟨t, f⟩ := a
      cases f <;> simp [countInter, countFinal, List.filter] at ih ⊢ <;> omega

theorem effect_notRecording (t : AppState) (h : t.isRecording = false) :
    summarizeDebounceEffect t = { t with summarizeTimeout := none } := by
  unfold summarizeDebounceEffect
  rw [if_pos (Or.inl h)]

theorem effect_emptyTranscript (t : AppState) (h : t.currentTranscript = "") :
    summarizeDebounceEffect t = { t with summarizeTimeout := none } := by
  unfold summarizeDebounceEffect
  rw [if_pos (Or.inr (Or.inl (by rw [h]; rfl)))]

theorem step_fields_notRecording (s : AppState) (e : Event)
    (h : (coreStep s e).isRecording = false) :
    (step s e).sumCalls = (coreStep s e).sumCalls ∧
    (step s e).appStatus = (coreStep s e).appStatus ∧
    (step s e).finalizePollPending = (coreStep s e).finalizePollPending ∧
    (step s e).currentNotes = (coreStep s e).currentNotes ∧
    (step s e).currentTranscript = (coreStep s e).currentTranscript ∧
    ((step s e).summarizeTimeout = (coreStep s e).summarizeTimeout ∨
      (step s e).summarizeTimeout = none) ∧
    (step s e).txCalls = (coreStep s e).txCalls ∧
    (step s e).inFlightSummarizations =
      (coreStep s e).inFlightSummarizations ∧
    (step s e).isRecording = (coreStep s e).isRecording := by
  unfold step
  split
  · exact ⟨rfl, rfl, rfl, rfl, rfl, Or.inl rfl, rfl, rfl, rfl⟩
  · rw [effect_notRecording _ h]
    exact ⟨rfl, rfl, rfl, rfl, rfl, Or.inr rfl, rfl, rfl, rfl⟩

theorem checkFin_fields (v : AppState) :
    (checkAndFinalize v).currentTranscript = v.currentTranscript ∧
    (checkAndFinalize v).errorMessage = v.errorMessage ∧
    (checkAndFinalize v).audioChunkQueue = v.audioChunkQueue ∧
    (checkAndFinalize v).isProcessingAudioChunk = v.isProcessingAudioChunk ∧
    (checkAndFinalize v).summarizeTimeout = v.summarizeTimeout ∧
    (checkAndFinalize v).isRecording = v.isRecording ∧
    (checkAndFinalize v).now = v.now ∧
    (checkAndFinalize v).inFlightTranscriptions =
      v.inFlightTranscriptions ∧
    (checkAndFinalize v).txCalls = v.txCalls ∧
    (checkAndFinalize v).txResultsOk = v.txResultsOk ∧
    (checkAndFinalize v).enqueuedChunks = v.enqueuedChunks := by
  rcases checkFin_cases v with ⟨_, heq⟩ |
    ⟨_, _, _, _, g3, _, g5, g6, g7, g8, g9, g10, g11, _, g13, _, g15, g16⟩ |
    ⟨_, _, _, _, heq⟩ | ⟨_, _, _, _, heq⟩
  · rw [heq]; exact ⟨rfl, rfl, rfl, rfl, rfl, rfl, rfl, rfl, rfl, rfl, rfl⟩
  · exact ⟨g3, g5, g6, g7, g8, g9, g10, g11, g13, g15, g16⟩
  · rw [heq]
    obtain ⟨f1, f2, f3, f4, f5, f6, f7, f8, f9, f10, f11, f12⟩ :=
      sumStart_fields v v.currentTranscript true
    exact ⟨f1, f2, f3, f4, f5, f6, f8, f9, f10, f11, f12⟩
  · rw [heq]
    exact ⟨rfl, rfl, rfl, rfl, rfl, rfl, rfl, rfl, rfl, rfl, rfl⟩

theorem doPQ_conserve (u : AppState) :
    (doProcessAudioChunkQueue u).txCalls ++
      (doProcessAudioChunkQueue u).audioChunkQueue =
      u.txCalls ++ u.audioChunkQueue ∧
    (doProcessAudioChunkQueue u).enqueuedChunks = u.enqueuedChunks := by
  rcases doPQ_eq u with ⟨heq, _⟩ | ⟨c, rest, hq, _, _, heq⟩
  · rw [heq]; exact ⟨rfl, rfl⟩
  · rw [heq]
    obtain ⟨f1, f2, f3, f4, f5, f6, f7, f8, f9, f10, f11, f12, f13, f14, f15⟩ :=
      txStart_fields { u with audioChunkQueue := rest } c
    constructor
    · rw [f12, f4]
      show (u.txCalls ++ [c]) ++ rest = u.txCalls ++ u.audioChunkQueue
      rw [hq]
      simp
    · exact f15

theorem pollFire_step_cases (s : AppState) (hp : s.finalizePollPending = true)
    (hrec : s.isRecording = false) (htimer : s.summarizeTimeout = none) :
    (s.appStatus ≠ error →
      ¬(s.audioChunkQueue = [] ∧ s.isProcessingAudioChunk = false) →
      (step s .pollFire).sumCalls = s.sumCalls ∧
      (step s .pollFire).appStatus = processingAudioChunk ∧
      (step s .pollFire).finalizePollPending = true) ∧
    (s.appStatus ≠ error → s.audioChunkQueue = [] →
      s.isProcessingAudioChunk = false →
      MIN_TRANSCRIPT_LENGTH_FOR_SUMMARY ≤
        (strTrim s.currentTranscript).length →
      (step s .pollFire).sumCalls =
        s.sumCalls ++ [(s.currentTranscript, true)] ∧
      (step s .pollFire).appStatus = summarizingNotes ∧
      (step s .pollFire).summarizeTimeout = none ∧
      (step s .pollFire).finalizePollPending = false) ∧
    (s.appStatus ≠ error → s.audioChunkQueue = [] →
      s.isProcessingAudioChunk = false →
      (strTrim s.currentTranscript).length <
        MIN_TRANSCRIPT_LENGTH_FOR_SUMMARY →
      (step s .pollFire).sumCalls = s.sumCalls ∧
      (step s .pollFire).appStatus = idle ∧
      (step s .pollFire).currentNotes =
        (if strTrim s.currentTranscript = "" then initialNotes
         else s.currentNotes) ∧
      (step s .pollFire).finalizePollPending = false) := by
  have hcs : coreStep s .pollFire =
      checkAndFinalize { s with finalizePollPending := false } := by
    rw [show coreStep s .pollFire = finalizePollFire s from rfl]
    unfold finalizePollFire
    rw [if_pos hp]
  have hrec2 : (coreStep s .pollFire).isRecording = false := by
    rw [hcs, (checkFin_fields _).2.2.2.2.2.1]
    exact hrec
  obtain ⟨k1, k2, k3, k4, k5, k6, k7, k8, k9⟩ :=
    step_fields_notRecording s .pollFire hrec2
  rcases checkFin_cases { s with finalizePollPending := false } with
    ⟨herr2, _⟩ |
    ⟨herr2, hnq, g1, g2, g3, g4, _, _, _, _, _, _, _, _, _, g14, _, _⟩ |
    ⟨herr2, hq, hproc, hlen, heq⟩ | ⟨herr2, hq, hproc, hlen, heq⟩
  · refine ⟨fun hne _ => absurd herr2 hne, fun hne _ _ _ => absurd herr2 hne,
      fun hne _ _ _ => absurd herr2 hne⟩
  · refine ⟨fun _ _ => ⟨?_, ?_, ?_⟩, fun _ hq hpr _ => absurd ⟨hq, hpr⟩ hnq,
      fun _ hq hpr _ => absurd ⟨hq, hpr⟩ hnq⟩
    · rw [k1, hcs, g14]
    · rw [k2, hcs, g1]
    · rw [k3, hcs, g2]
  · have hlen2 : MIN_TRANSCRIPT_LENGTH_FOR_SUMMARY ≤
        (strTrim s.currentTranscript).length := hlen
    refine ⟨fun _ hne => absurd ⟨hq, hproc⟩ hne, fun _ _ _ _ => ⟨?_, ?_, ?_, ?_⟩,
      fun _ _ _ hlt => by omega⟩
    · rw [k1, hcs, heq, sumStart_issue _ _ hlen]
    · rw [k2, hcs, heq, sumStart_issue _ _ hlen]
    · rcases k6 with k6 | k6
      · rw [k6, hcs, heq, sumStart_issue _ _ hlen]
        exact htimer
      · exact k6
    · rw [k3, hcs, heq, sumStart_issue _ _ hlen]
  · have hlen2 : (strTrim s.currentTranscript).length <
        MIN_TRANSCRIPT_LENGTH_FOR_SUMMARY := hlen
    refine ⟨fun _ hne => absurd ⟨hq, hproc⟩ hne, fun _ _ _ hge => by omega,
      fun _ _ _ _ => ⟨?_, ?_, ?_, ?_⟩⟩
    · rw [k1, hcs, heq]
    · rw [k2, hcs, heq]
    · rw [k4, hcs, heq]
    · rw [k3, hcs, heq]

theorem shortStep (m : AppState) (e : Event) (hnt : e.isToggle = false)
    (hshort : (strTrim m.currentTranscript).length <
      MIN_TRANSCRIPT_LENGTH_FOR_SUMMARY)
    (h1 : m.sumCalls = []) (h2 : isPlaceholderNotes m.currentNotes)
    (h3 : m.inFlightSummarizations = []) :
    (step m e).sumCalls = [] ∧
    isPlaceholderNotes (step m e).currentNotes ∧
    (step m e).inFlightSummarizations = [] := by
  have heff : ∀ u : AppState, u.sumCalls = [] →
      isPlaceholderNotes u.currentNotes → u.inFlightSummarizations = [] →
      (summarizeDebounceEffect u).sumCalls = [] ∧
      isPlaceholderNotes (summarizeDebounceEffect u).currentNotes ∧
      (summarizeDebounceEffect u).inFlightSummarizations = [] := by
    intro u k1 k2 k3
    obtain ⟨_, _, _, _, _, _, _, _, _, f10, _, f12, _, _⟩ := effect_fields u
    refine ⟨by rw [f12]; exact k1, ?_, by rw [f10]; exact k3⟩
    rcases effect_notes u with hn | hn
    · rw [hn]; exact k2
    · rw [hn]; exact Or.inr (Or.inl rfl)
  suffices hcore : (coreStep m e).sumCalls = [] ∧
      isPlaceholderNotes (coreStep m e).currentNotes ∧
      (coreStep m e).inFlightSummarizations = [] by
    unfold step
    split
    · exact hcore
    · exact heff _ hcore.1 hcore.2.1 hcore.2.2
  have hchk : ∀ u : AppState,
      u.currentTranscript = m.currentTranscript →
      u.currentNotes = m.currentNotes → u.sumCalls = [] →
      u.inFlightSummarizations = [] →
      (checkAndFinalize u).sumCalls = [] ∧
      isPlaceholderNotes (checkAndFinalize u).currentNotes ∧
      (checkAndFinalize u).inFlightSummarizations = [] := by
    intro u k0 k1 k2 k3
    rcases checkFin_cases u with ⟨_, heq⟩ |
      ⟨_, _, _, _, _, g4, _, _, _, _, _, _, _, g12, _, g14, _, _⟩ |
      ⟨_, _, _, hlen, _⟩ | ⟨_, _, _, _, heq⟩
    · rw [heq]; exact ⟨k2, by rw [k1]; exact h2, k3⟩
    · exact ⟨by rw [g14]; exact k2, by rw [g4, k1]; exact h2,
        by rw [g12]; exact k3⟩
    · rw [k0] at hlen; omega
    · rw [heq]
      refine ⟨k2, ?_, k3⟩
      show isPlaceholderNotes
        (if strTrim u.currentTranscript = "" then initialNotes
         else u.currentNotes)
      split
      · exact Or.inl rfl
      · rw [k1]; exact h2
  cases e with
  | chunkArrive c =>
      rw [show coreStep m (.chunkArrive c) = onChunkAvailable m c from rfl]
      unfold onChunkAvailable
      split_ifs with herr
      · exact ⟨h1, h2, h3⟩
      · rcases doPQ_eq { m with
            audioChunkQueue := m.audioChunkQueue ++ [c],
            enqueuedChunks := m.enqueuedChunks ++ [c] } with ⟨heq, _⟩ |
          ⟨c2, rest, _, _, _, heq⟩
        · rw [heq]; exact ⟨h1, h2, h3⟩
        · rw [heq]
          obtain ⟨_, f2, _, _, _, _, _, _, _, _, f11, _, f13, _, _⟩ :=
            txStart_fields { { m with
              audioChunkQueue := m.audioChunkQueue ++ [c],
              enqueuedChunks := m.enqueuedChunks ++ [c] } with
              audioChunkQueue := rest } c2
          exact ⟨by rw [f13]; exact h1, by rw [f2]; exact h2,
            by rw [f11]; exact h3⟩
  | txComplete r =>
      rw [show coreStep m (.txComplete r) =
        (match m.inFlightTranscriptions with
         | [] => m
         | _ :: rest =>
             handleChunkTranscriptionFinish
               { m with inFlightTranscriptions := rest } r) from rfl]
      split
      · exact ⟨h1, h2, h3⟩
      · next c rest hfl =>
          unfold handleChunkTranscriptionFinish
          obtain ⟨_, t2, _, _, _, _, _, _, _, _, t11, _, t13, _, _⟩ :=
            txTail_fields (doProcessAudioChunkQueue
              { txFinishBody { m with inFlightTranscriptions := rest } r with
                isProcessingAudioChunk := false })
          have hbody : (txFinishBody
              { m with inFlightTranscriptions := rest } r).sumCalls = [] ∧
              (txFinishBody { m with inFlightTranscriptions := rest }
                r).currentNotes = m.currentNotes ∧
              (txFinishBody { m with inFlightTranscriptions := rest }
                r).inFlightSummarizations = [] := by
            cases r with
            | ok text => rw [txBody_ok]; exact ⟨h1, rfl, h3⟩
            | error msg => rw [txBody_err]; exact ⟨h1, rfl, h3⟩
          rcases doPQ_eq { txFinishBody
              { m with inFlightTranscriptions := rest } r with
              isProcessingAudioChunk := false } with ⟨heq, _⟩ |
            ⟨c2, rest2, _, _, _, heq⟩
          · rw [heq] at t2 t11 t13 ⊢
            exact ⟨by rw [t13]; exact hbody.1,
              by rw [t2, hbody.2.1]; exact h2, by rw [t11]; exact hbody.2.2⟩
          · rw [heq] at t2 t11 t13 ⊢
            obtain ⟨_, f2, _, _, _, _, _, _, _, _, f11, _, f13, _, _⟩ :=
              txStart_fields { { txFinishBody
                { m with inFlightTranscriptions := rest } r with
                isProcessingAudioChunk := false } with
                audioChunkQueue := rest2 } c2
            exact ⟨by rw [t13, f13]; exact hbody.1,
              by rw [t2, f2, hbody.2.1]; exact h2,
              by rw [t11, f11]; exact hbody.2.2⟩
  | sumComplete i r =>
      rw [show coreStep m (.sumComplete i r) =
        (match m.inFlightSummarizations.get? i with
         | none => m
         | some (_, isFinal) =>
             handleSummarizeNotesFinish
               { m with inFlightSummarizations :=
                   m.inFlightSummarizations.eraseIdx i } isFinal r) from rfl]
      split
      · exact ⟨h1, h2, h3⟩
      · next t f hget =>
          rw [h3] at hget
          cases i <;> simp [List.get?] at hget
  | timeoutFire =>
      rw [show coreStep m .timeoutFire = summarizeTimeoutFire m from rfl]
      unfold summarizeTimeoutFire
      split
      · exact ⟨h1, h2, h3⟩
      · split_ifs with hd hg
        · omega
        · exact ⟨h1, h2, h3⟩
        · exact ⟨h1, h2, h3⟩
  | pollFire =>
      rw [show coreStep m .pollFire = finalizePollFire m from rfl]
      unfold finalizePollFire
      split_ifs with hp
      · exact hchk _ rfl rfl h1 h3
      · exact ⟨h1, h2, h3⟩
  | recordingStop =>
      rw [show coreStep m .recordingStop =
        (if m.isRecording = true then onRecordingStop m else m) from rfl]
      unfold onRecordingStop
      split_ifs with hr
      · exact hchk _ rfl rfl h1 h3
      · exact ⟨h1, h2, h3⟩
  | tick d =>
      exact ⟨h1, h2, h3⟩
  | toggle ok => simp [Event.isToggle] at hnt

theorem step_resolve (s : AppState) (e : Event) (R : AppState)
    (hc : coreStep s e = R) (hR : R.currentTranscript = "") :
    step s e = R ∨ step s e = { R with summarizeTimeout := none } := by
  unfold step
  rw [hc]
  split
  · exact Or.inl rfl
  · exact Or.inr (effect_emptyTranscript _ hR)

theorem step_resolve_id (s : AppState) (e : Event)
    (hc : coreStep s e = s) : step s e = s := by
  unfold step
  rw [hc]
  rw [if_pos ⟨rfl, rfl, rfl⟩]

/-! ### Claim theorems -/

/-- Claim C1: within one session (any interleaving of chunk arrivals, call
completions and timer fires, hence independent of completion latency), the
Transcript always equals the space-joined concatenation of the texts
returned by the successful transcription calls, in order, an empty returned
text contributing nothing; and the enqueued chunks are handed to the
transcription gateway strictly in enqueue order (the gateway-call history
followed by the still-queued chunks is exactly the enqueue history).  No
success hypothesis is needed: failed calls simply contribute no text. -/
theorem claim1_transcript_space_join (evs : List Event)
    (hnt : noToggle evs) :
    (run sessionStart evs).currentTranscript =
      joinChunkTexts (run sessionStart evs).txResultsOk ∧
    (run sessionStart evs).enqueuedChunks =
      (run sessionStart evs).txCalls ++
        (run sessionStart evs).audioChunkQueue :=
  TraceInv_run evs hnt

/-- Witness for C1 on a concrete three-chunk session in which the second
chunk transcribes to the empty string. -/
theorem claim1_witness :
    noToggle [Event.chunkArrive "c1", Event.txComplete (Except.ok "hello"),
      Event.chunkArrive "c2", Event.txComplete (Except.ok ""),
      Event.chunkArrive "c3", Event.txComplete (Except.ok "world")] ∧
    ((run sessionStart [Event.chunkArrive "c1",
        Event.txComplete (Except.ok "hello"), Event.chunkArrive "c2",
        Event.txComplete (Except.ok ""), Event.chunkArrive "c3",
        Event.txComplete (Except.ok "world")]).currentTranscript =
      joinChunkTexts (run sessionStart [Event.chunkArrive "c1",
        Event.txComplete (Except.ok "hello"), Event.chunkArrive "c2",
        Event.txComplete (Except.ok ""), Event.chunkArrive "c3",
        Event.txComplete (Except.ok "world")]).txResultsOk ∧
     (run sessionStart [Event.chunkArrive "c1",
        Event.txComplete (Except.ok "hello"), Event.chunkArrive "c2",
        Event.txComplete (Except.ok ""), Event.chunkArrive "c3",
        Event.txComplete (Except.ok "world")]).enqueuedChunks =
      (run sessionStart [Event.chunkArrive "c1",
        Event.txComplete (Except.ok "hello"), Event.chunkArrive "c2",
        Event.txComplete (Except.ok ""), Event.chunkArrive "c3",
        Event.txComplete (Except.ok "world")]).txCalls ++
        (run sessionStart [Event.chunkArrive "c1",
          Event.txComplete (Except.ok "hello"), Event.chunkArrive "c2",
          Event.txComplete (Except.ok ""), Event.chunkArrive "c3",
          Event.txComplete (Except.ok "world")]).audioChunkQueue) ∧
    (run sessionStart [Event.chunkArrive "c1",
      Event.txComplete (Except.ok "hello"), Event.chunkArrive "c2",
      Event.txComplete (Except.ok ""), Event.chunkArrive "c3",
      Event.txComplete (Except.ok "world")]).currentTranscript =
      "hello world" :=
  ⟨by decide, claim1_transcript_space_join _ (by decide), by decide⟩

/-- Claim C2 (counterexample): the claim "at most one summarization call in
flight at any instant, for every interleaving" is false.  In this
single-session interleaving an intermediate debounced summarization is
still in flight when recording stops with the drain already complete, and
the mandatory final call — exempt from the overlap guard
(`appStatus === 'summarizingNotes' && !isFinal`) — is issued at once: two
summarization calls are simultaneously outstanding. -/
theorem claim2_counterexample :
    noToggle [Event.chunkArrive "c1",
      Event.txComplete (Except.ok "aaaaaaaaaaaaaaaaaaaaaaaaaaaaaa"),
      Event.tick 7000, Event.timeoutFire, Event.recordingStop] ∧
    (run sessionStart [Event.chunkArrive "c1",
      Event.txComplete (Except.ok "aaaaaaaaaaaaaaaaaaaaaaaaaaaaaa"),
      Event.tick 7000, Event.timeoutFire,
      Event.recordingStop]).inFlightSummarizations =
      [("aaaaaaaaaaaaaaaaaaaaaaaaaaaaaa", false),
       ("aaaaaaaaaaaaaaaaaaaaaaaaaaaaaa", true)] ∧
    (run sessionStart [Event.chunkArrive "c1",
      Event.txComplete (Except.ok "aaaaaaaaaaaaaaaaaaaaaaaaaaaaaa"),
      Event.tick 7000, Event.timeoutFire,
      Event.recordingStop]).inFlightSummarizations.length = 2 := by
  refine ⟨by decide, by decide, by decide⟩

/-- Claim C2 (amended): at most one transcription call is ever in flight —
a chunk is dequeued only while the processing flag is clear, and the flag
tracks exactly the unique in-flight call; at most one intermediate
summarization call is in flight at a time and at most one final call, but
the mandatory final call may overlap a still-running intermediate call, so
up to two summarization calls can be outstanding simultaneously. -/
theorem claim2_amended (evs : List Event) (hnt : noToggle evs) :
    (run sessionStart evs).inFlightTranscriptions.length ≤ 1 ∧
    ((run sessionStart evs).isProcessingAudioChunk = true ↔
      (run sessionStart evs).inFlightTranscriptions ≠ []) ∧
    countInter (run sessionStart evs).inFlightSummarizations ≤ 1 ∧
    countFinal (run sessionStart evs).inFlightSummarizations ≤ 1 ∧
    (run sessionStart evs).inFlightSummarizations.length ≤ 2 := by
  have h := SInv_run evs hnt
  have hcf : countFinal (run sessionStart evs).inFlightSummarizations ≤ 1 :=
    le_trans h.finalInFlight h.finalBound
  have hsplit := count_split (run sessionStart evs).inFlightSummarizations
  have hci := h.interBound
  exact ⟨h.txBound, h.procFlag, h.interBound, hcf, by omega⟩

/-- Witness for the amended C2 at the two-in-flight interleaving: the
bounds hold there with the summarization bound attained (one intermediate
and one final call outstanding). -/
theorem claim2_amended_witness :
    noToggle [Event.chunkArrive "c1",
      Event.txComplete (Except.ok "aaaaaaaaaaaaaaaaaaaaaaaaaaaaaa"),
      Event.tick 7000, Event.timeoutFire, Event.recordingStop] ∧
    ((run sessionStart [Event.chunkArrive "c1",
        Event.txComplete (Except.ok "aaaaaaaaaaaaaaaaaaaaaaaaaaaaaa"),
        Event.tick 7000, Event.timeoutFire,
        Event.recordingStop]).inFlightTranscriptions.length ≤ 1 ∧
      ((run sessionStart [Event.chunkArrive "c1",
        Event.txComplete (Except.ok "aaaaaaaaaaaaaaaaaaaaaaaaaaaaaa"),
        Event.tick 7000, Event.timeoutFire,
        Event.recordingStop]).isProcessingAudioChunk = true ↔
        (run sessionStart [Event.chunkArrive "c1",
          Event.txComplete (Except.ok "aaaaaaaaaaaaaaaaaaaaaaaaaaaaaa"),
          Event.tick 7000, Event.timeoutFire,
          Event.recordingStop]).inFlightTranscriptions ≠ []) ∧
      countInter (run sessionStart [Event.chunkArrive "c1",
        Event.txComplete (Except.ok "aaaaaaaaaaaaaaaaaaaaaaaaaaaaaa"),
        Event.tick 7000, Event.timeoutFire,
        Event.recordingStop]).inFlightSummarizations ≤ 1 ∧
      countFinal (run sessionStart [Event.chunkArrive "c1",
        Event.txComplete (Except.ok "aaaaaaaaaaaaaaaaaaaaaaaaaaaaaa"),
        Event.tick 7000, Event.timeoutFire,
        Event.recordingStop]).inFlightSummarizations ≤ 1 ∧
      (run sessionStart [Event.chunkArrive "c1",
        Event.txComplete (Except.ok "aaaaaaaaaaaaaaaaaaaaaaaaaaaaaa"),
        Event.tick 7000, Event.timeoutFire,
        Event.recordingStop]).inFlightSummarizations.length ≤ 2) :=
  ⟨by decide, claim2_amended _ (by decide)⟩

/-- Claim C5: once a gateway failure has put the session in Error, no
further transcription call and no further summarization call is ever
issued for the remainder of the session, whatever events follow (queued or
newly arriving chunks, pending debounce timer or finalization poll
firings); the Error status itself is sticky. -/
theorem claim5_no_calls_after_error (s : AppState) (evs : List Event)
    (herr : s.appStatus = error) (hnt : noToggle evs) :
    (run s evs).txCalls = s.txCalls ∧
    (run s evs).sumCalls = s.sumCalls ∧
    (run s evs).appStatus = error := by
  obtain ⟨a, b, c⟩ := errorRun_facts s evs herr hnt
  exact ⟨b, c, a⟩

/-- Witness for C5: a concrete session that fails on its first
transcription, followed by further chunk arrivals, timer and poll firings
and the recorder stop — no gateway call is added. -/
theorem claim5_witness :
    (run sessionStart [Event.chunkArrive "c1",
      Event.txComplete (Except.error "boom")]).appStatus = error ∧
    noToggle [Event.chunkArrive "c2", Event.chunkArrive "c3",
      Event.timeoutFire, Event.recordingStop, Event.pollFire,
      Event.tick 500] ∧
    ((run (run sessionStart [Event.chunkArrive "c1",
        Event.txComplete (Except.error "boom")])
        [Event.chunkArrive "c2", Event.chunkArrive "c3", Event.timeoutFire,
         Event.recordingStop, Event.pollFire, Event.tick 500]).txCalls =
      (run sessionStart [Event.chunkArrive "c1",
        Event.txComplete (Except.error "boom")]).txCalls ∧
     (run (run sessionStart [Event.chunkArrive "c1",
        Event.txComplete (Except.error "boom")])
        [Event.chunkArrive "c2", Event.chunkArrive "c3", Event.timeoutFire,
         Event.recordingStop, Event.pollFire, Event.tick 500]).sumCalls =
      (run sessionStart [Event.chunkArrive "c1",
        Event.txComplete (Except.error "boom")]).sumCalls ∧
     (run (run sessionStart [Event.chunkArrive "c1",
        Event.txComplete (Except.error "boom")])
        [Event.chunkArrive "c2", Event.chunkArrive "c3", Event.timeoutFire,
         Event.recordingStop, Event.pollFire, Event.tick 500]).appStatus =
      error) :=
  ⟨by decide, by decide, claim5_no_calls_after_error _ _ (by decide)
    (by decide)⟩

/-- Claim C6: transcript growth at t = 0 s, 1 s and 2 s with the 7-second
quiet window produces exactly one summarization call.  Each growth inside
the window cancels and restarts the pending timer (deadlines 7000, 8000,
9000 ms), a fire attempted before t = 9 s issues nothing, and the single
call fires at t = 9000 ms ≥ 9 s carrying the transcript as it stands at
firing time. -/
theorem claim6_debounce_coalescing :
    (run sessionStart [Event.chunkArrive "c1",
      Event.txComplete (Except.ok "aaaaaaaaaaaaaaaaaaaaaaaaaaaaaa")]
      ).summarizeTimeout = some 7000 ∧
    (run sessionStart [Event.chunkArrive "c1",
      Event.txComplete (Except.ok "aaaaaaaaaaaaaaaaaaaaaaaaaaaaaa"),
      Event.tick 1000, Event.chunkArrive "c2",
      Event.txComplete (Except.ok "b")]).summarizeTimeout = some 8000 ∧
    (run sessionStart [Event.chunkArrive "c1",
      Event.txComplete (Except.ok "aaaaaaaaaaaaaaaaaaaaaaaaaaaaaa"),
      Event.tick 1000, Event.chunkArrive "c2",
      Event.txComplete (Except.ok "b"), Event.tick 1000,
      Event.chunkArrive "c3",
      Event.txComplete (Except.ok "c")]).summarizeTimeout = some 9000 ∧
    (run sessionStart [Event.chunkArrive "c1",
      Event.txComplete (Except.ok "aaaaaaaaaaaaaaaaaaaaaaaaaaaaaa"),
      Event.tick 1000, Event.chunkArrive "c2",
      Event.txComplete (Except.ok "b"), Event.tick 1000,
      Event.chunkArrive "c3", Event.txComplete (Except.ok "c"),
      Event.tick 6999, Event.timeoutFire]).sumCalls = [] ∧
    (run sessionStart [Event.chunkArrive "c1",
      Event.txComplete (Except.ok "aaaaaaaaaaaaaaaaaaaaaaaaaaaaaa"),
      Event.tick 1000, Event.chunkArrive "c2",
      Event.txComplete (Except.ok "b"), Event.tick 1000,
      Event.chunkArrive "c3", Event.txComplete (Except.ok "c"),
      Event.tick 7000, Event.timeoutFire]).sumCalls =
      [("aaaaaaaaaaaaaaaaaaaaaaaaaaaaaa b c", false)] ∧
    (run sessionStart [Event.chunkArrive "c1",
      Event.txComplete (Except.ok "aaaaaaaaaaaaaaaaaaaaaaaaaaaaaa"),
      Event.tick 1000, Event.chunkArrive "c2",
      Event.txComplete (Except.ok "b"), Event.tick 1000,
      Event.chunkArrive "c3", Event.txComplete (Except.ok "c"),
      Event.tick 7000, Event.timeoutFire]).now = 9000 ∧
    (run sessionStart [Event.chunkArrive "c1",
      Event.txComplete (Except.ok "aaaaaaaaaaaaaaaaaaaaaaaaaaaaaa"),
      Event.tick 1000, Event.chunkArrive "c2",
      Event.txComplete (Except.ok "b"), Event.tick 1000,
      Event.chunkArrive "c3", Event.txComplete (Except.ok "c"),
      Event.tick 7000, Event.timeoutFire]).currentTranscript =
      "aaaaaaaaaaaaaaaaaaaaaaaaaaaaaa b c" := by
  refine ⟨by decide, by decide, by decide, by decide, by decide, by decide,
    by decide⟩

/-- Claim C7: in any single-session run whose transcript stays below the
30-character minimum-content threshold at every point, the summarization
gateway is never invoked (no call is ever issued, none is in flight) and
Notes never leaves the placeholder values. -/
theorem claim7_below_threshold (evs : List Event) (hnt : noToggle evs)
    (hshort : ∀ n, n ≤ evs.length →
      (strTrim (run sessionStart (evs.take n)).currentTranscript).length <
        MIN_TRANSCRIPT_LENGTH_FOR_SUMMARY) :
    (run sessionStart evs).sumCalls = [] ∧
    isPlaceholderNotes (run sessionStart evs).currentNotes ∧
    (run sessionStart evs).inFlightSummarizations = [] := by
  induction evs using List.reverseRecOn with
  | nil => exact ⟨rfl, Or.inl rfl, rfl⟩
  | append_singleton evs e ih =>
      have h1 : noToggle evs := fun x hx => hnt x (by simp [hx])
      have h2 : e.isToggle = false := hnt e (by simp)
      have hshort1 : ∀ n, n ≤ evs.length →
          (strTrim (run sessionStart
            (evs.take n)).currentTranscript).length <
            MIN_TRANSCRIPT_LENGTH_FOR_SUMMARY := by
        intro n hn
        have := hshort n (by simp; omega)
        rwa [List.take_append_of_le_length hn] at this
      have hm : (strTrim (run sessionStart evs).currentTranscript).length <
          MIN_TRANSCRIPT_LENGTH_FOR_SUMMARY := by
        have := hshort evs.length (by simp)
        rwa [List.take_append_of_le_length (le_refl _),
          List.take_length] at this
      obtain ⟨k1, k2, k3⟩ := ih h1 hshort1
      rw [run_append]
      exact shortStep _ e h2 hm k1 k2 k3

/-- Witness for C7: a short session (one chunk transcribing to a 5-letter
word, then stop and finalization) stays below threshold throughout; no
summarization call is recorded and Notes stays a placeholder. -/
theorem claim7_witness :
    noToggle [Event.chunkArrive "c1", Event.txComplete (Except.ok "hello"),
      Event.recordingStop] ∧
    (∀ n, n ≤ ([Event.chunkArrive "c1", Event.txComplete (Except.ok "hello"),
        Event.recordingStop] : List Event).length →
      (strTrim (run sessionStart (([Event.chunkArrive "c1",
        Event.txComplete (Except.ok "hello"),
        Event.recordingStop] : List Event).take n)).currentTranscript
        ).length < MIN_TRANSCRIPT_LENGTH_FOR_SUMMARY) ∧
    ((run sessionStart [Event.chunkArrive "c1",
        Event.txComplete (Except.ok "hello"),
        Event.recordingStop]).sumCalls = [] ∧
      isPlaceholderNotes (run sessionStart [Event.chunkArrive "c1",
        Event.txComplete (Except.ok "hello"),
        Event.recordingStop]).currentNotes ∧
      (run sessionStart [Event.chunkArrive "c1",
        Event.txComplete (Except.ok "hello"),
        Event.recordingStop]).inFlightSummarizations = []) :=
  ⟨by decide, by decide, claim7_below_threshold _ (by decide) (by decide)⟩

/-- Claim C10: when a chunk-available event fires in the Error state the
chunk is dropped without any effect at all (the state, in particular the
ChunkQueue, is left exactly unchanged); in every non-error state the
arriving chunk is retained — it is recorded as enqueued, and it either
sits at the tail of the queue or (when the sequencer is free) has already
been handed to the transcription gateway, conserving
`txCalls ++ audioChunkQueue`. -/
theorem claim10_error_drops_chunk (s : AppState) (c : String) :
    (s.appStatus = error → step s (.chunkArrive c) = s) ∧
    (s.appStatus ≠ error →
      (step s (.chunkArrive c)).enqueuedChunks = s.enqueuedChunks ++ [c] ∧
      (step s (.chunkArrive c)).txCalls ++
        (step s (.chunkArrive c)).audioChunkQueue =
        s.txCalls ++ s.audioChunkQueue ++ [c]) := by
  constructor
  · intro herr
    have hc : coreStep s (.chunkArrive c) = s := by
      rw [show coreStep s (.chunkArrive c) = onChunkAvailable s c from rfl]
      unfold onChunkAvailable
      rw [if_pos herr]
    unfold step
    rw [hc]
    rw [if_pos ⟨rfl, rfl, rfl⟩]
  · intro herr
    have hc : coreStep s (.chunkArrive c) =
        doProcessAudioChunkQueue
          { s with audioChunkQueue := s.audioChunkQueue ++ [c],
                   enqueuedChunks := s.enqueuedChunks ++ [c] } := by
      rw [show coreStep s (.chunkArrive c) = onChunkAvailable s c from rfl]
      unfold onChunkAvailable
      rw [if_neg herr]
    obtain ⟨d1, d2⟩ := doPQ_conserve
      { s with audioChunkQueue := s.audioChunkQueue ++ [c],
               enqueuedChunks := s.enqueuedChunks ++ [c] }
    have hstep : (step s (.chunkArrive c)).enqueuedChunks =
        (coreStep s (.chunkArrive c)).enqueuedChunks ∧
        (step s (.chunkArrive c)).txCalls =
          (coreStep s (.chunkArrive c)).txCalls ∧
        (step s (.chunkArrive c)).audioChunkQueue =
          (coreStep s (.chunkArrive c)).audioChunkQueue := by
      unfold step
      split
      · exact ⟨rfl, rfl, rfl⟩
      · obtain ⟨_, _, _, f4, _, _, _, _, _, _, f11, _, _, f14⟩ :=
          effect_fields (coreStep s (.chunkArrive c))
        exact ⟨f14, f11, f4⟩
    refine ⟨?_, ?_⟩
    · rw [hstep.1, hc, d2]
    · rw [hstep.2.1, hstep.2.2, hc, d1]
      simp

/-- Claim C3: the finalization barrier.  Per session at most one mandatory
final summarization call is ever issued; while the post-stop poll is
outstanding the debounce timer stays cancelled; a poll firing while the
drain is incomplete issues nothing, reports `processingAudioChunk` and
re-arms itself; a poll firing once the queue is empty and nothing is in
flight issues exactly one final summarization call over the current
Transcript (timer cancelled) when the 30-character threshold is met — even
if no intermediate call ever fired — and otherwise goes straight to Idle
with the placeholder Notes (the initial placeholder when the transcript is
blank, the prior placeholder otherwise); the final call's success then
transitions the session to Idle. -/
theorem claim3_finalization_barrier (evs : List Event)
    (hnt : noToggle evs) :
    countFinal (run sessionStart evs).sumCalls ≤ 1 ∧
    ((run sessionStart evs).finalizePollPending = true →
      (run sessionStart evs).summarizeTimeout = none) ∧
    ((run sessionStart evs).finalizePollPending = true →
      (run sessionStart evs).appStatus ≠ error →
      ¬((run sessionStart evs).audioChunkQueue = [] ∧
        (run sessionStart evs).isProcessingAudioChunk = false) →
      (step (run sessionStart evs) .pollFire).sumCalls =
        (run sessionStart evs).sumCalls ∧
      (step (run sessionStart evs) .pollFire).appStatus =
        processingAudioChunk ∧
      (step (run sessionStart evs) .pollFire).finalizePollPending = true) ∧
    ((run sessionStart evs).finalizePollPending = true →
      (run sessionStart evs).appStatus ≠ error →
      (run sessionStart evs).audioChunkQueue = [] →
      (run sessionStart evs).isProcessingAudioChunk = false →
      MIN_TRANSCRIPT_LENGTH_FOR_SUMMARY ≤
        (strTrim (run sessionStart evs).currentTranscript).length →
      (step (run sessionStart evs) .pollFire).sumCalls =
        (run sessionStart evs).sumCalls ++
          [((run sessionStart evs).currentTranscript, true)] ∧
      countFinal (step (run sessionStart evs) .pollFire).sumCalls = 1 ∧
      (step (run sessionStart evs) .pollFire).appStatus =
        summarizingNotes ∧
      (step (run sessionStart evs) .pollFire).summarizeTimeout = none) ∧
    ((run sessionStart evs).finalizePollPending = true →
      (run sessionStart evs).appStatus ≠ error →
      (run sessionStart evs).audioChunkQueue = [] →
      (run sessionStart evs).isProcessingAudioChunk = false →
      (strTrim (run sessionStart evs).currentTranscript).length <
        MIN_TRANSCRIPT_LENGTH_FOR_SUMMARY →
      (step (run sessionStart evs) .pollFire).sumCalls =
        (run sessionStart evs).sumCalls ∧
      (step (run sessionStart evs) .pollFire).appStatus = idle ∧
      ((run sessionStart evs).sumCalls = [] →
        isPlaceholderNotes
          (step (run sessionStart evs) .pollFire).currentNotes)) ∧
    (∀ t text,
      (run sessionStart evs).inFlightSummarizations = [(t, true)] →
      (run sessionStart evs).appStatus ≠ error →
      (step (run sessionStart evs)
        (.sumComplete 0 (.ok text))).appStatus = idle ∧
      (step (run sessionStart evs)
        (.sumComplete 0 (.ok text))).currentNotes = text) := by
  have hI := SInv_run evs hnt
  have hrecOf : (run sessionStart evs).finalizePollPending = true →
      (run sessionStart evs).isRecording = false := by
    intro hp
    by_contra hne
    rw [Bool.not_eq_false] at hne
    rw [hI.recNoPoll hne] at hp
    cases hp
  refine ⟨hI.finalBound, hI.pollTimer, ?_, ?_, ?_, ?_⟩
  · intro hp herr hnd
    exact (pollFire_step_cases _ hp (hrecOf hp) (hI.pollTimer hp)).1 herr hnd
  · intro hp herr hq hproc hge
    obtain ⟨a, b, c, d⟩ := (pollFire_step_cases _ hp (hrecOf hp)
      (hI.pollTimer hp)).2.1 herr hq hproc hge
    refine ⟨a, ?_, b, c⟩
    rw [a, countFinal_append, countFinal_single]
    have h0 := hI.noFinalYet (Or.inr hp)
    simp [h0]
  · intro hp herr hq hproc hlt
    obtain ⟨a, b, c, d⟩ := (pollFire_step_cases _ hp (hrecOf hp)
      (hI.pollTimer hp)).2.2 herr hq hproc hlt
    refine ⟨a, b, ?_⟩
    intro hcalls
    rw [c]
    split
    · exact Or.inl rfl
    · rcases hI.notesState with hn | hn | hn
      · exact hn
      · exact absurd hcalls hn
      · exact absurd hn herr
  · intro t text hin herr2
    have hfin1 : 1 ≤ countFinal
        (run sessionStart evs).inFlightSummarizations := by
      rw [hin, show ([(t, true)] : List (String × Bool)) =
        [] ++ [(t, true)] from rfl, countFinal_append, countFinal_single]
      simp
    have hrecS : (run sessionStart evs).isRecording = false :=
      hI.finalNotRec hfin1
    have hc : coreStep (run sessionStart evs) (.sumComplete 0 (.ok text)) =
        handleSummarizeNotesFinish
          { run sessionStart evs with inFlightSummarizations := [] }
          true (.ok text) := by
      rw [show coreStep (run sessionStart evs) (.sumComplete 0 (.ok text)) =
        (match (run sessionStart evs).inFlightSummarizations.get? 0 with
         | none => run sessionStart evs
         | some (_, isFinal) =>
             handleSummarizeNotesFinish
               { run sessionStart evs with inFlightSummarizations :=
                   (run sessionStart evs).inFlightSummarizations.eraseIdx 0 }
               isFinal (.ok text)) from rfl]
      rw [hin]
      rfl
    obtain ⟨n1, n2, n3, n4⟩ := sumFinish_ok
      { run sessionStart evs with inFlightSummarizations := [] } true text
    have hstat : (handleSummarizeNotesFinish
        { run sessionStart evs with inFlightSummarizations := [] }
        true (.ok text)).appStatus = idle := (n4 herr2).1 rfl
    have hrecC : (coreStep (run sessionStart evs)
        (.sumComplete 0 (.ok text))).isRecording = false := by
      rw [hc, (sumFinish_fields _ _ _).2.2.2.2.1]
      exact hrecS
    obtain ⟨k1, k2, k3, k4, _⟩ :=
      step_fields_notRecording (run sessionStart evs)
        (.sumComplete 0 (.ok text)) hrecC
    exact ⟨by rw [k2, hc, hstat], by rw [k4, hc, n1]⟩

/-- Witness for C3: a session whose single chunk is still being transcribed
when recording stops, so the barrier re-arms a poll; the chunk then
completes with a 30-character text, and the witnessed poll fire issues
exactly one mandatory final summarization call. -/
theorem claim3_witness :
    (step (run sessionStart [Event.chunkArrive "c1", Event.recordingStop,
        Event.txComplete (Except.ok "aaaaaaaaaaaaaaaaaaaaaaaaaaaaaa")])
        .pollFire).sumCalls =
      (run sessionStart [Event.chunkArrive "c1", Event.recordingStop,
        Event.txComplete
          (Except.ok "aaaaaaaaaaaaaaaaaaaaaaaaaaaaaa")]).sumCalls ++
        [((run sessionStart [Event.chunkArrive "c1", Event.recordingStop,
          Event.txComplete (Except.ok "aaaaaaaaaaaaaaaaaaaaaaaaaaaaaa")]
          ).currentTranscript, true)] ∧
    countFinal (step (run sessionStart [Event.chunkArrive "c1",
        Event.recordingStop,
        Event.txComplete (Except.ok "aaaaaaaaaaaaaaaaaaaaaaaaaaaaaa")])
        .pollFire).sumCalls = 1 ∧
    (step (run sessionStart [Event.chunkArrive "c1", Event.recordingStop,
        Event.txComplete (Except.ok "aaaaaaaaaaaaaaaaaaaaaaaaaaaaaa")])
        .pollFire).appStatus = summarizingNotes ∧
    (step (run sessionStart [Event.chunkArrive "c1", Event.recordingStop,
        Event.txComplete (Except.ok "aaaaaaaaaaaaaaaaaaaaaaaaaaaaaa")])
        .pollFire).summarizeTimeout = none :=
  (claim3_finalization_barrier [Event.chunkArrive "c1", Event.recordingStop,
    Event.txComplete (Except.ok "aaaaaaaaaaaaaaaaaaaaaaaaaaaaaa")]
    (by decide)).2.2.2.1 (by decide) (by decide) (by decide) (by decide)
    (by decide)

/-- Claim C4 (counterexample): the claim "after a gateway failure the
last-known Transcript and Notes remain unmodified until a fresh session
start" is false.  A transcription failure while an intermediate
summarization call is still in flight puts the session in Error, yet the
pending summarization's later success still overwrites Notes. -/
theorem claim4_counterexample :
    noToggle [Event.chunkArrive "c1",
      Event.txComplete (Except.ok "aaaaaaaaaaaaaaaaaaaaaaaaaaaaaa"),
      Event.tick 7000, Event.timeoutFire, Event.chunkArrive "c2",
      Event.txComplete (Except.error "boom")] ∧
    (run sessionStart [Event.chunkArrive "c1",
      Event.txComplete (Except.ok "aaaaaaaaaaaaaaaaaaaaaaaaaaaaaa"),
      Event.tick 7000, Event.timeoutFire, Event.chunkArrive "c2",
      Event.txComplete (Except.error "boom")]).appStatus = error ∧
    (run sessionStart [Event.chunkArrive "c1",
      Event.txComplete (Except.ok "aaaaaaaaaaaaaaaaaaaaaaaaaaaaaa"),
      Event.tick 7000, Event.timeoutFire, Event.chunkArrive "c2",
      Event.txComplete (Except.error "boom")]).currentNotes ≠ "SUMMARY" ∧
    (step (run sessionStart [Event.chunkArrive "c1",
      Event.txComplete (Except.ok "aaaaaaaaaaaaaaaaaaaaaaaaaaaaaa"),
      Event.tick 7000, Event.timeoutFire, Event.chunkArrive "c2",
      Event.txComplete (Except.error "boom")])
      (.sumComplete 0 (.ok "SUMMARY"))).currentNotes = "SUMMARY" ∧
    (step (run sessionStart [Event.chunkArrive "c1",
      Event.txComplete (Except.ok "aaaaaaaaaaaaaaaaaaaaaaaaaaaaaa"),
      Event.tick 7000, Event.timeoutFire, Event.chunkArrive "c2",
      Event.txComplete (Except.error "boom")])
      (.sumComplete 0 (.ok "SUMMARY"))).appStatus = error := by
  refine ⟨by decide, by decide, by decide, by decide, by decide⟩

/-- Claim C4 (amended): a gateway failure makes Error sticky and stops all
further gateway calls; the Transcript and Notes are no longer modified by
any event except the completion of a call that was already in flight at
the moment of failure (a concurrent transcription success still appends to
the Transcript, a concurrent summarization completion still overwrites
Notes); a fresh session start (possible once recording is off) fully
resets Transcript, Notes, queue, error message and status. -/
theorem claim4_amended (s : AppState) (e : Event)
    (herr : s.appStatus = error) :
    (e.isToggle = false →
      (step s e).appStatus = error ∧
      (step s e).txCalls = s.txCalls ∧
      (step s e).sumCalls = s.sumCalls) ∧
    (e.isToggle = false → e.isTxDone = false → e.isSumDone = false →
      (step s e).currentTranscript = s.currentTranscript ∧
      (step s e).currentNotes = s.currentNotes) ∧
    (s.isRecording = false →
      (step s (.toggle true)).currentTranscript = "" ∧
      (step s (.toggle true)).currentNotes = initialNotes ∧
      (step s (.toggle true)).audioChunkQueue = [] ∧
      (step s (.toggle true)).errorMessage = none ∧
      (step s (.toggle true)).appStatus = capturingAudio ∧
      (step s (.toggle true)).isRecording = true) := by
  refine ⟨?_, ?_, ?_⟩
  · intro hnt
    obtain ⟨a, b, c, _⟩ := errorStep_facts s e herr hnt
    exact ⟨a, b, c⟩
  · intro hnt hx hs
    exact (errorStep_facts s e herr hnt).2.2.2 hx hs
  · intro hnr
    have hc : coreStep s (.toggle true) =
        { s with currentTranscript := "", currentNotes := initialNotes,
                 audioChunkQueue := [], errorMessage := none,
                 appStatus := capturingAudio, isRecording := true } := by
      rw [show coreStep s (.toggle true) = handleRecordToggle s true from
        rfl]
      unfold handleRecordToggle
      rw [if_neg (by rw [hnr]; exact Bool.false_ne_true)]
      rfl
    rcases step_resolve s (.toggle true) _ hc rfl with he | he <;> rw [he]
    · exact ⟨rfl, rfl, rfl, rfl, rfl, rfl⟩
    · exact ⟨rfl, rfl, rfl, rfl, rfl, rfl⟩

/-- Witness for C4 (amended) at a concrete error state, the stopped session
whose transcription failed, and the debounce-fire event. -/
theorem claim4_amended_witness :
    (run sessionStart [Event.chunkArrive "c1",
      Event.txComplete (Except.error "boom"),
      Event.recordingStop]).appStatus = error ∧
    ((Event.timeoutFire.isToggle = false →
      (step (run sessionStart [Event.chunkArrive "c1",
        Event.txComplete (Except.error "boom"), Event.recordingStop])
        Event.timeoutFire).appStatus = error ∧
      (step (run sessionStart [Event.chunkArrive "c1",
        Event.txComplete (Except.error "boom"), Event.recordingStop])
        Event.timeoutFire).txCalls =
        (run sessionStart [Event.chunkArrive "c1",
          Event.txComplete (Except.error "boom"),
          Event.recordingStop]).txCalls ∧
      (step (run sessionStart [Event.chunkArrive "c1",
        Event.txComplete (Except.error "boom"), Event.recordingStop])
        Event.timeoutFire).sumCalls =
        (run sessionStart [Event.chunkArrive "c1",
          Event.txComplete (Except.error "boom"),
          Event.recordingStop]).sumCalls) ∧
     (Event.timeoutFire.isToggle = false →
      Event.timeoutFire.isTxDone = false →
      Event.timeoutFire.isSumDone = false →
      (step (run sessionStart [Event.chunkArrive "c1",
        Event.txComplete (Except.error "boom"), Event.recordingStop])
        Event.timeoutFire).currentTranscript =
        (run sessionStart [Event.chunkArrive "c1",
          Event.txComplete (Except.error "boom"),
          Event.recordingStop]).currentTranscript ∧
      (step (run sessionStart [Event.chunkArrive "c1",
        Event.txComplete (Except.error "boom"), Event.recordingStop])
        Event.timeoutFire).currentNotes =
        (run sessionStart [Event.chunkArrive "c1",
          Event.txComplete (Except.error "boom"),
          Event.recordingStop]).currentNotes) ∧
     ((run sessionStart [Event.chunkArrive "c1",
        Event.txComplete (Except.error "boom"),
        Event.recordingStop]).isRecording = false →
      (step (run sessionStart [Event.chunkArrive "c1",
        Event.txComplete (Except.error "boom"), Event.recordingStop])
        (.toggle true)).currentTranscript = "" ∧
      (step (run sessionStart [Event.chunkArrive "c1",
        Event.txComplete (Except.error "boom"), Event.recordingStop])
        (.toggle true)).currentNotes = initialNotes ∧
      (step (run sessionStart [Event.chunkArrive "c1",
        Event.txComplete (Except.error "boom"), Event.recordingStop])
        (.toggle true)).audioChunkQueue = [] ∧
      (step (run sessionStart [Event.chunkArrive "c1",
        Event.txComplete (Except.error "boom"), Event.recordingStop])
        (.toggle true)).errorMessage = none ∧
      (step (run sessionStart [Event.chunkArrive "c1",
        Event.txComplete (Except.error "boom"), Event.recordingStop])
        (.toggle true)).appStatus = capturingAudio ∧
      (step (run sessionStart [Event.chunkArrive "c1",
        Event.txComplete (Except.error "boom"), Event.recordingStop])
        (.toggle true)).isRecording = true)) :=
  ⟨by decide, claim4_amended _ Event.timeoutFire (by decide)⟩

/-- Claim C8 (code bug): no session tagging exists in the code, so a stale
finalization poll from a superseded session is not discarded.  Failing
input: the old session stops while its only chunk is still in flight
(leaving a poll pending), the chunk transcribes to the empty string (so
the session reaches Idle with the poll still outstanding), a new session
starts and transcribes a 30-character chunk; the stale poll then fires and
issues a mandatory final summarization of the NEW session's transcript
while recording is active, and its completion overwrites the new session's
Notes and drives its status to Idle mid-recording. -/
theorem claim8_stale_poll_hits_new_session :
    (run mountState [Event.toggle true, Event.chunkArrive "old1",
      Event.recordingStop,
      Event.txComplete (Except.ok "")]).finalizePollPending = true ∧
    (run mountState [Event.toggle true, Event.chunkArrive "old1",
      Event.recordingStop,
      Event.txComplete (Except.ok "")]).appStatus = idle ∧
    (run mountState [Event.toggle true, Event.chunkArrive "old1",
      Event.recordingStop, Event.txComplete (Except.ok ""),
      Event.toggle true, Event.chunkArrive "new1",
      Event.txComplete (Except.ok "aaaaaaaaaaaaaaaaaaaaaaaaaaaaaa"),
      Event.pollFire]).isRecording = true ∧
    (run mountState [Event.toggle true, Event.chunkArrive "old1",
      Event.recordingStop, Event.txComplete (Except.ok ""),
      Event.toggle true, Event.chunkArrive "new1",
      Event.txComplete (Except.ok "aaaaaaaaaaaaaaaaaaaaaaaaaaaaaa"),
      Event.pollFire]).sumCalls =
      [("aaaaaaaaaaaaaaaaaaaaaaaaaaaaaa", true)] ∧
    (run mountState [Event.toggle true, Event.chunkArrive "old1",
      Event.recordingStop, Event.txComplete (Except.ok ""),
      Event.toggle true, Event.chunkArrive "new1",
      Event.txComplete (Except.ok "aaaaaaaaaaaaaaaaaaaaaaaaaaaaaa"),
      Event.pollFire]).appStatus = summarizingNotes ∧
    (step (run mountState [Event.toggle true, Event.chunkArrive "old1",
      Event.recordingStop, Event.txComplete (Except.ok ""),
      Event.toggle true, Event.chunkArrive "new1",
      Event.txComplete (Except.ok "aaaaaaaaaaaaaaaaaaaaaaaaaaaaaa"),
      Event.pollFire]) (.sumComplete 0 (.ok "STALE SUMMARY"))
      ).currentNotes = "STALE SUMMARY" ∧
    (step (run mountState [Event.toggle true, Event.chunkArrive "old1",
      Event.recordingStop, Event.txComplete (Except.ok ""),
      Event.toggle true, Event.chunkArrive "new1",
      Event.txComplete (Except.ok "aaaaaaaaaaaaaaaaaaaaaaaaaaaaaa"),
      Event.pollFire]) (.sumComplete 0 (.ok "STALE SUMMARY"))
      ).appStatus = idle ∧
    (step (run mountState [Event.toggle true, Event.chunkArrive "old1",
      Event.recordingStop, Event.txComplete (Except.ok ""),
      Event.toggle true, Event.chunkArrive "new1",
      Event.txComplete (Except.ok "aaaaaaaaaaaaaaaaaaaaaaaaaaaaaa"),
      Event.pollFire]) (.sumComplete 0 (.ok "STALE SUMMARY"))
      ).isRecording = true := by
  refine ⟨by decide, by decide, by decide, by decide, by decide, by decide,
    by decide, by decide⟩

/-- Claim C9 (counterexample): the claim "toggleSession starts a session if
and only if SessionStatus is Idle and stops the session otherwise" is
false.  In the Error state after a failed, stopped session (status is not
Idle, recording off) the toggle does not stop anything — it starts a fresh
session: recording turns on, the state resets and status becomes
Capturing. -/
theorem claim9_counterexample :
    (run sessionStart [Event.chunkArrive "c1",
      Event.txComplete (Except.error "boom"),
      Event.recordingStop]).appStatus ≠ idle ∧
    (run sessionStart [Event.chunkArrive "c1",
      Event.txComplete (Except.error "boom"),
      Event.recordingStop]).isRecording = false ∧
    (step (run sessionStart [Event.chunkArrive "c1",
      Event.txComplete (Except.error "boom"), Event.recordingStop])
      (.toggle true)).isRecording = true ∧
    (step (run sessionStart [Event.chunkArrive "c1",
      Event.txComplete (Except.error "boom"), Event.recordingStop])
      (.toggle true)).appStatus = capturingAudio ∧
    (step (run sessionStart [Event.chunkArrive "c1",
      Event.txComplete (Except.error "boom"), Event.recordingStop])
      (.toggle true)).currentTranscript = "" ∧
    (step (run sessionStart [Event.chunkArrive "c1",
      Event.txComplete (Except.error "boom"), Event.recordingStop])
      (.toggle true)).errorMessage = none := by
  refine ⟨by decide, by decide, by decide, by decide, by decide, by decide⟩

/-- Claim C9 (amended): the toggle command branches on whether recording is
active, not on Idle status: while recording it only requests a stop (the
state changes arrive with the recorder's stop callback); when recording is
inactive — from Idle, but equally from Error or a post-stop state — it
starts a session, resetting Transcript, Notes, ChunkQueue and the error
message and setting status to Capturing on success (Error on a failed
start), without touching the gateway-call history. -/
theorem claim9_amended (s : AppState) (ok : Bool) :
    (s.isRecording = true → step s (.toggle ok) = s) ∧
    (s.isRecording = false →
      (step s (.toggle ok)).currentTranscript = "" ∧
      (step s (.toggle ok)).currentNotes = initialNotes ∧
      (step s (.toggle ok)).audioChunkQueue = [] ∧
      (step s (.toggle ok)).errorMessage =
        (if ok then none else some startFailureMsg) ∧
      (step s (.toggle ok)).appStatus =
        (if ok then capturingAudio else error) ∧
      (step s (.toggle ok)).isRecording = ok ∧
      (step s (.toggle ok)).txCalls = s.txCalls ∧
      (step s (.toggle ok)).sumCalls = s.sumCalls) := by
  constructor
  · intro hrec
    apply step_resolve_id
    rw [show coreStep s (.toggle ok) = handleRecordToggle s ok from rfl]
    unfold handleRecordToggle
    rw [if_pos hrec]
  · intro hnr
    have hc : coreStep s (.toggle ok) =
        { s with currentTranscript := "", currentNotes := initialNotes,
                 audioChunkQueue := [],
                 errorMessage := if ok then none else some startFailureMsg,
                 appStatus := if ok then capturingAudio else error,
                 isRecording := ok } := by
      rw [show coreStep s (.toggle ok) = handleRecordToggle s ok from rfl]
      unfold handleRecordToggle
      rw [if_neg (by rw [hnr]; exact Bool.false_ne_true)]
    rcases step_resolve s (.toggle ok) _ hc rfl with he | he <;> rw [he]
    · exact ⟨rfl, rfl, rfl, rfl, rfl, rfl, rfl, rfl⟩
    · exact ⟨rfl, rfl, rfl, rfl, rfl, rfl, rfl, rfl⟩

/-- Witness for C9 (amended) at the freshly mounted component (recording
inactive) with a successful start. -/
theorem claim9_amended_witness :
    mountState.isRecording = false ∧
    ((mountState.isRecording = true →
      step mountState (.toggle true) = mountState) ∧
     (mountState.isRecording = false →
      (step mountState (.toggle true)).currentTranscript = "" ∧
      (step mountState (.toggle true)).currentNotes = initialNotes ∧
      (step mountState (.toggle true)).audioChunkQueue = [] ∧
      (step mountState (.toggle true)).errorMessage =
        (if true then none else some startFailureMsg) ∧
      (step mountState (.toggle true)).appStatus =
        (if true then capturingAudio else error) ∧
      (step mountState (.toggle true)).isRecording = true ∧
      (step mountState (.toggle true)).txCalls = mountState.txCalls ∧
      (step mountState (.toggle true)).sumCalls = mountState.sumCalls)) :=
  ⟨by decide, claim9_amended mountState true⟩

/-- Witness for C10, at a non-error state (the freshly mounted component)
and at a concrete error state. -/
theorem claim10_witness :
    ((mountState.appStatus = error → step mountState (.chunkArrive "x") =
        mountState) ∧
      (mountState.appStatus ≠ error →
        (step mountState (.chunkArrive "x")).enqueuedChunks =
          mountState.enqueuedChunks ++ ["x"] ∧
        (step mountState (.chunkArrive "x")).txCalls ++
          (step mountState (.chunkArrive "x")).audioChunkQueue =
          mountState.txCalls ++ mountState.audioChunkQueue ++ ["x"])) ∧
    mountState.appStatus ≠ error ∧
    (step mountState (.chunkArrive "x")).enqueuedChunks = ["x"] :=
  ⟨claim10_error_drops_chunk mountState "x", by decide, by decide⟩

end Studio
